import Mathlib

/-!
# Verification of the VM-to-assembly translator (`08_vm_part2`)

Shallow embedding of `parser.py`, `code_generator.py` and `vm_translator.py`
from `src/operating_systems/phase2_software/08_vm_part2/`, together with a
small-step semantics for the straight-line fragments of the generated Hack
assembly (word semantics mirror the repository's CPU emulator in
`phase1_hardware/04_assembly_emulator/assembly_emulator.py`: 16-bit words
stored unsigned, ALU operating on two's-complement signed views and masking
results back to 16 bits).

Assembly output is modelled as a list of structured lines (`AsmLine`), one
per text line the Python code emits; inline trailing comments on instruction
lines are not modelled (the assembler strips them).
-/

namespace VMT

/-! ## Decimal rendering, mirroring Python's `str` on `int` -/

/-- The decimal digit character for `d` (`d < 10`). -/
def digitChar (d : Nat) : Char :=
  match d with
  | 0 => '0' | 1 => '1' | 2 => '2' | 3 => '3' | 4 => '4'
  | 5 => '5' | 6 => '6' | 7 => '7' | 8 => '8' | _ => '9'

/-- Decimal digit characters, fuel-indexed so the kernel can evaluate it
(the fuel `n + 1` always suffices). -/
def natCharsAux : Nat → Nat → List Char
  | 0, _ => []
  | fuel + 1, n =>
    if n < 10 then [digitChar n]
    else natCharsAux fuel (n / 10) ++ [digitChar (n % 10)]

/-- Decimal digit characters of `n`, most significant first. -/
def natChars (n : Nat) : List Char := natCharsAux (n + 1) n

/-- Decimal string of a natural number (agrees with Python's `str`). -/
def natStr (n : Nat) : String := ⟨natChars n⟩

/-- Decimal string of an integer (agrees with Python's `str`). -/
def intStr (i : Int) : String := if i < 0 then "-" ++ natStr i.natAbs else natStr i.toNat

/-- Numeric value of a digit character. -/
def digitVal (c : Char) : Nat := c.toNat - 48

/-- Evaluate a digit string back to a number (verification helper). -/
def valOfChars (l : List Char) : Nat := l.foldl (fun a c => a * 10 + digitVal c) 0

theorem digitVal_digitChar (d : Nat) (h : d < 10) : digitVal (digitChar d) = d := by
  interval_cases d <;> rfl

theorem valOfChars_append (l : List Char) (c : Char) :
    valOfChars (l ++ [c]) = 10 * valOfChars l + digitVal c := by
  simp [valOfChars, List.foldl_append, Nat.mul_comm]

theorem valOfChars_natCharsAux (f : Nat) :
    ∀ n, n < f → valOfChars (natCharsAux f n) = n := by
  induction f with
  | zero => intro n hn; omega
  | succ f ih =>
    intro n hn
    rw [natCharsAux]
    by_cases h : n < 10
    · simp only [h, if_true]
      simp [valOfChars, digitVal_digitChar n h]
    · simp only [h, if_false]
      rw [valOfChars_append, ih (n / 10) (by
          have := Nat.div_lt_self (show 0 < n by omega) (show 1 < 10 by omega)
          omega),
        digitVal_digitChar _ (Nat.mod_lt _ (by omega))]
      omega

theorem valOfChars_natChars (n : Nat) : valOfChars (natChars n) = n :=
  valOfChars_natCharsAux (n + 1) n (by omega)

theorem natChars_injective : Function.Injective natChars := by
  intro a b h
  have := congrArg valOfChars h
  rwa [valOfChars_natChars, valOfChars_natChars] at this

theorem natStr_injective : Function.Injective natStr := by
  intro a b h
  exact natChars_injective (congrArg String.data h)

theorem string_data_append (a b : String) : (a ++ b).data = a.data ++ b.data := by
  cases a; cases b; rfl

theorem append_natStr_inj (p : String) {a b : Nat}
    (h : p ++ natStr a = p ++ natStr b) : a = b := by
  have hd := congrArg String.data h
  rw [string_data_append, string_data_append] at hd
  exact natStr_injective (congrArg String.mk (List.append_cancel_left hd))

/-! ## Python string helpers used by the parser/driver -/

/-- Python `s.strip()`: remove leading and trailing whitespace. -/
def pyStrip (s : String) : String :=
  ⟨((s.data.dropWhile Char.isWhitespace).reverse.dropWhile
      Char.isWhitespace).reverse⟩

/-- Python `line.startswith('//')`. -/
def startsSlashSlash (s : String) : Bool :=
  match s.data with
  | '/' :: '/' :: _ => true
  | _ => false

/-- Python `s.split()` worker: split on whitespace runs, dropping empties. -/
def pySplitAux : List Char → List Char → List String
  | [], acc => if acc.isEmpty then [] else [⟨acc.reverse⟩]
  | c :: rest, acc =>
    if c.isWhitespace then
      if acc.isEmpty then pySplitAux rest []
      else (⟨acc.reverse⟩ : String) :: pySplitAux rest []
    else pySplitAux rest (c :: acc)

/-- Python `s.split()`: split on whitespace runs, dropping empty pieces. -/
def pySplit (s : String) : List String := pySplitAux s.data []

/-- The text before the first `//` (Python `line.split('//')[0]`). -/
def beforeSlashSlash : List Char → List Char
  | [] => []
  | '/' :: '/' :: _ => []
  | c :: rest => c :: beforeSlashSlash rest

/-- Python `line.split('//')[0].strip()`: text before the first `//`, trimmed. -/
def stripInlineComment (l : String) : String :=
  pyStrip ⟨beforeSlashSlash l.data⟩

/-- Python `s.replace('.vm', '')`: scan left to right, skipping each
occurrence of `.vm`. -/
def eraseVmChars : List Char → List Char
  | [] => []
  | '.' :: 'v' :: 'm' :: rest => eraseVmChars rest
  | c :: rest => c :: eraseVmChars rest

/-- Python `s.replace('.vm', '')` on strings. -/
def pyEraseVm (s : String) : String := ⟨eraseVmChars s.data⟩

/-- Python `int(tok)` on a whitespace-free token: optional sign, then decimal
digits possibly separated by single underscores.  `none` models `ValueError`. -/
def pyInt (tok : String) : Option Int :=
  match tok.data with
  | '+' :: rest => (pyIntDigits rest).map (fun n => (n : Int))
  | '-' :: rest => (pyIntDigits rest).map (fun n => -(n : Int))
  | l => (pyIntDigits l).map (fun n => (n : Int))
where
  /-- Digits with optional single underscores between digits. -/
  pyIntDigits (l : List Char) : Option Nat :=
    match l with
    | c :: rest => if c.isDigit then pyIntCore rest (c.toNat - 48) else none
    | [] => none
  /-- Accumulate digits after the first one. -/
  pyIntCore (l : List Char) (acc : Nat) : Option Nat :=
    match l with
    | [] => some acc
    | c :: rest =>
      if c.isDigit then pyIntCore rest (acc * 10 + (c.toNat - 48))
      else if c = '_' then
        match rest with
        | r :: rs => if r.isDigit then pyIntCore (r :: rs) acc else none
        | [] => none
      else none

/-! ## VM commands (`parser.py : Parser.parse_command`) -/

/-- A structured VM command, mirroring the dicts built by `parse_command`.
Operation and segment names stay as strings because the generator dispatches
on the strings again. -/
inductive Command where
  | arithmetic (operation : String)
  | push (segment : String) (index : Int)
  | pop (segment : String) (index : Int)
  | label (label : String)
  | goto (label : String)
  | ifGoto (label : String)
  | function (name : String) (nLocals : Int)
  | call (name : String) (nArgs : Int)
  | ret
deriving DecidableEq

/-- Equality of `Except` results is decidable (needed to evaluate the
embedding on concrete inputs). -/
instance {e a : Type} [DecidableEq e] [DecidableEq a] : DecidableEq (Except e a) :=
  fun x y =>
    match x, y with
    | .ok u, .ok v =>
      if h : u = v then isTrue (by rw [h]) else isFalse (by simp [h])
    | .error u, .error v =>
      if h : u = v then isTrue (by rw [h]) else isFalse (by simp [h])
    | .ok _, .error _ => isFalse (by simp)
    | .error _, .ok _ => isFalse (by simp)

/-- The arithmetic/logical opcodes recognised by the parser. -/
def arithOps : List String := ["add", "sub", "neg", "eq", "gt", "lt", "and", "or", "not"]

/-- `Parser.parse_command`.  `Except.error` models an uncaught Python
exception (`ValueError` from an unknown opcode or bad `int()`, `IndexError`
from missing operands). -/
def parseCommand (line : String) : Except String Command :=
  match pySplit line with
  | [] => .error "IndexError: list index out of range"
  | cmdType :: rest =>
    if cmdType ∈ arithOps then .ok (.arithmetic cmdType)
    else if cmdType = "push" then
      match rest with
      | seg :: idx :: _ =>
        match pyInt idx with
        | some i => .ok (.push seg i)
        | none => .error ("ValueError: invalid literal for int(): " ++ idx)
      | _ => .error "IndexError: list index out of range"
    else if cmdType = "pop" then
      match rest with
      | seg :: idx :: _ =>
        match pyInt idx with
        | some i => .ok (.pop seg i)
        | none => .error ("ValueError: invalid literal for int(): " ++ idx)
      | _ => .error "IndexError: list index out of range"
    else if cmdType = "label" then
      match rest with
      | l :: _ => .ok (.label l)
      | [] => .error "IndexError: list index out of range"
    else if cmdType = "goto" then
      match rest with
      | l :: _ => .ok (.goto l)
      | [] => .error "IndexError: list index out of range"
    else if cmdType = "if-goto" then
      match rest with
      | l :: _ => .ok (.ifGoto l)
      | [] => .error "IndexError: list index out of range"
    else if cmdType = "function" then
      match rest with
      | n :: k :: _ =>
        match pyInt k with
        | some i => .ok (.function n i)
        | none => .error ("ValueError: invalid literal for int(): " ++ k)
      | _ => .error "IndexError: list index out of range"
    else if cmdType = "call" then
      match rest with
      | n :: k :: _ =>
        match pyInt k with
        | some i => .ok (.call n i)
        | none => .error ("ValueError: invalid literal for int(): " ++ k)
      | _ => .error "IndexError: list index out of range"
    else if cmdType = "return" then .ok .ret
    else .error ("Unknown command: " ++ cmdType)

/-! ## Hack assembly lines (structured, one per emitted text line) -/

/-- Destination field of a C-instruction. -/
inductive Dest where
  | none | dM | dD | dMD | dA | dAM | dAD | dAMD
deriving DecidableEq

/-- Jump field of a C-instruction. -/
inductive Jump where
  | none | jgt | jeq | jge | jlt | jne | jle | jmp
deriving DecidableEq

/-- Computation field of a C-instruction (full Hack comp table). -/
inductive Comp where
  | c0 | c1 | cNeg1 | cD | cA | cM
  | cNotD | cNotA | cNotM | cNegD | cNegA | cNegM
  | cDp1 | cAp1 | cMp1 | cDm1 | cAm1 | cMm1
  | cDpA | cDpM | cDmA | cDmM | cAmD | cMmD
  | cDandA | cDandM | cDorA | cDorM
deriving DecidableEq

/-- One line of generated assembly text. -/
inductive AsmLine where
  | aNum (n : Int)
  | aSym (s : String)
  | labelDecl (s : String)
  | cI (dest : Dest) (comp : Comp) (jump : Jump)
  | comment (s : String)
  | blank
deriving DecidableEq

/-! ## Machine semantics for straight-line assembly

Words are 16-bit, stored unsigned (`Nat < 65536` once written); the ALU
converts to signed two's complement where the emulator does and masks every
result back to 16 bits (`to_unsigned`).  `step` ignores the jump field: it is
the evaluator for jump-free code, and the theorems sequence the basic blocks
of the generated code explicitly at their jump boundaries. -/

/-- `to_signed` from the emulator: unsigned 16-bit word to signed value. -/
def toSigned (w : Nat) : Int :=
  if w % 65536 < 32768 then ((w % 65536 : Nat) : Int) else ((w % 65536 : Nat) : Int) - 65536

/-- `to_unsigned` from the emulator: mask a value back to a 16-bit word. -/
def toUnsigned (i : Int) : Nat := (i % 65536).toNat

/-- Does the comp field read `M` (RAM at the address register)? -/
def Comp.usesM : Comp → Bool
  | .cM | .cNotM | .cNegM | .cMp1 | .cMm1 | .cDpM | .cDmM | .cMmD | .cDandM | .cDorM => true
  | _ => false

/-- ALU result before masking, exactly the emulator's operation table
(bitwise operations act on the raw unsigned words, arithmetic on the signed
views, as in `alu_compute`). -/
def compInt (c : Comp) (d y : Nat) : Int :=
  match c with
  | .c0 => 0
  | .c1 => 1
  | .cNeg1 => -1
  | .cD => d
  | .cA | .cM => y
  | .cNotD => -(d : Int) - 1
  | .cNotA | .cNotM => -(y : Int) - 1
  | .cNegD => -(toSigned d)
  | .cNegA | .cNegM => -(toSigned y)
  | .cDp1 => toSigned d + 1
  | .cAp1 | .cMp1 => toSigned y + 1
  | .cDm1 => toSigned d - 1
  | .cAm1 | .cMm1 => toSigned y - 1
  | .cDpA | .cDpM => toSigned d + toSigned y
  | .cDmA | .cDmM => toSigned d - toSigned y
  | .cAmD | .cMmD => toSigned y - toSigned d
  | .cDandA | .cDandM => (Nat.land d y : Int)
  | .cDorA | .cDorM => (Nat.lor d y : Int)

/-- Does the dest field write the address register? -/
def Dest.hasA : Dest → Bool
  | .dA | .dAM | .dAD | .dAMD => true
  | _ => false

/-- Does the dest field write the data register? -/
def Dest.hasD : Dest → Bool
  | .dD | .dMD | .dAD | .dAMD => true
  | _ => false

/-- Does the dest field write memory? -/
def Dest.hasM : Dest → Bool
  | .dM | .dMD | .dAM | .dAMD => true
  | _ => false

/-- Machine state: address register, data register, RAM. -/
structure Mach where
  A : Nat
  D : Nat
  ram : Nat → Nat

/-- Pointwise RAM update. -/
def wr (r : Nat → Nat) (a v : Nat) : Nat → Nat := fun b => if b = a then v else r b

@[simp] theorem wr_same (r : Nat → Nat) (a v : Nat) : wr r a v a = v := by simp [wr]

theorem wr_ne (r : Nat → Nat) (a v b : Nat) (h : b ≠ a) : wr r a v b = r b := by
  simp [wr, h]

/-- One straight-line step.  A-instructions load the 15-bit immediate (the
assembler truncates to 15 bits, the emulator masks with `0x7FFF`); symbolic
A-instructions go through the environment `env` (the assembler's symbol
table).  The dest field writes `A`, then `D`, then RAM at the *new* `A`,
exactly as the emulator does. -/
def step (env : String → Nat) (m : Mach) : AsmLine → Mach
  | .aNum n => { m with A := n.toNat % 32768 }
  | .aSym s => { m with A := env s % 32768 }
  | .labelDecl _ => m
  | .comment _ => m
  | .blank => m
  | .cI dest comp _jump =>
    let y := if comp.usesM then m.ram m.A else m.A
    let v := toUnsigned (compInt comp m.D y)
    let a' := if dest.hasA then v else m.A
    { A := a'
      D := if dest.hasD then v else m.D
      ram := if dest.hasM then wr m.ram a' v else m.ram }

/-- Execute a jump-free block of assembly lines. -/
def execAsm (env : String → Nat) (ls : List AsmLine) (m : Mach) : Mach :=
  ls.foldl (step env) m

/-- The assembler's resolution of the predefined symbols the generator
emits; all other symbols (static variables, function entry labels, return
labels) go through the user map `user`. -/
def symAddr (user : String → Nat) (s : String) : Nat :=
  if s = "SP" then 0
  else if s = "LCL" then 1
  else if s = "ARG" then 2
  else if s = "THIS" then 3
  else if s = "THAT" then 4
  else if s = "R13" then 13
  else if s = "R14" then 14
  else user s

/-! ## Code generator (`code_generator.py`) -/

/-- The mutable fields of `CodeGenerator`. -/
structure GenState where
  labelCounter : Nat
  returnCounter : Nat
  currentFile : String
  currentFunction : String
deriving DecidableEq

/-- `CodeGenerator.__init__`: counters start at zero; the static-scope name
comes from the constructor's filename argument (strip `.vm`, take the last
path component) or defaults to `"default"`. -/
def mkCodeGenerator (filename : Option String) : GenState :=
  { labelCounter := 0
    returnCounter := 0
    currentFile :=
      match filename with
      | Option.none => "default"
      | Option.some f =>
        match ((pyEraseVm f).splitOn "/").reverse with
        | [] => ""
        | x :: _ => x
    currentFunction := "" }

/-- `generate_arithmetic`.  Returns `none` (Python falls off the end,
returning `None`) for an operation string outside the nine opcodes; only the
comparison branch touches the label counter. -/
def generateArithmetic (st : GenState) (operation : String) :
    Option (List AsmLine) × GenState :=
  if operation ∈ ["add", "sub", "and", "or"] then
    let opLine : List AsmLine :=
      if operation = "add" then [.cI .dM .cDpM .none]
      else if operation = "sub" then [.cI .dM .cMmD .none]
      else if operation = "and" then [.cI .dM .cDandM .none]
      else if operation = "or" then [.cI .dM .cDorM .none]
      else []
    (some ([.comment operation,
            .aSym "SP", .cI .dM .cMm1 .none, .cI .dA .cM .none, .cI .dD .cM .none,
            .aSym "SP", .cI .dM .cMm1 .none, .cI .dA .cM .none] ++
           opLine ++
           [.aSym "SP", .cI .dM .cMp1 .none]), st)
  else if operation ∈ ["neg", "not"] then
    let opLine : List AsmLine :=
      if operation = "neg" then [.cI .dM .cNegM .none]
      else if operation = "not" then [.cI .dM .cNotM .none]
      else []
    (some ([.comment operation,
            .aSym "SP", .cI .dM .cMm1 .none, .cI .dA .cM .none] ++
           opLine ++
           [.aSym "SP", .cI .dM .cMp1 .none]), st)
  else if operation ∈ ["eq", "gt", "lt"] then
    let labelTrue := "TRUE_" ++ natStr st.labelCounter
    let labelEnd := "END_" ++ natStr st.labelCounter
    let st' := { st with labelCounter := st.labelCounter + 1 }
    let jumpLine : List AsmLine :=
      if operation = "eq" then [.aSym labelTrue, .cI .none .cD .jeq]
      else if operation = "gt" then [.aSym labelTrue, .cI .none .cD .jgt]
      else if operation = "lt" then [.aSym labelTrue, .cI .none .cD .jlt]
      else []
    (some ([.comment operation,
            .aSym "SP", .cI .dM .cMm1 .none, .cI .dA .cM .none, .cI .dD .cM .none,
            .aSym "SP", .cI .dM .cMm1 .none, .cI .dA .cM .none, .cI .dD .cMmD .none] ++
           jumpLine ++
           [.aSym "SP", .cI .dA .cM .none, .cI .dM .c0 .none,
            .aSym labelEnd, .cI .none .c0 .jmp,
            .labelDecl labelTrue,
            .aSym "SP", .cI .dA .cM .none, .cI .dM .cNeg1 .none,
            .labelDecl labelEnd,
            .aSym "SP", .cI .dM .cMp1 .none]), st')
  else (Option.none, st)

/-- `generate_push`.  `none` models Python's implicit `None` return for an
unknown segment; `file` is `self.current_file`. -/
def generatePush (file : String) (segment : String) (index : Int) :
    Option (List AsmLine) :=
  if segment = "constant" then
    some [.comment ("push constant " ++ intStr index),
          .aNum index, .cI .dD .cA .none,
          .aSym "SP", .cI .dA .cM .none, .cI .dM .cD .none,
          .aSym "SP", .cI .dM .cMp1 .none]
  else if segment ∈ ["local", "argument", "this", "that"] then
    let pointer :=
      if segment = "local" then "LCL"
      else if segment = "argument" then "ARG"
      else if segment = "this" then "THIS"
      else "THAT"
    some [.comment ("push " ++ segment ++ " " ++ intStr index),
          .aSym pointer, .cI .dD .cM .none,
          .aNum index, .cI .dA .cDpA .none, .cI .dD .cM .none,
          .aSym "SP", .cI .dA .cM .none, .cI .dM .cD .none,
          .aSym "SP", .cI .dM .cMp1 .none]
  else if segment = "temp" then
    some [.comment ("push temp " ++ intStr index),
          .aNum (5 + index), .cI .dD .cM .none,
          .aSym "SP", .cI .dA .cM .none, .cI .dM .cD .none,
          .aSym "SP", .cI .dM .cMp1 .none]
  else if segment = "pointer" then
    let pointer := if index = 0 then "THIS" else "THAT"
    some [.comment ("push pointer " ++ intStr index),
          .aSym pointer, .cI .dD .cM .none,
          .aSym "SP", .cI .dA .cM .none, .cI .dM .cD .none,
          .aSym "SP", .cI .dM .cMp1 .none]
  else if segment = "static" then
    some [.comment ("push static " ++ intStr index),
          .aSym (file ++ "." ++ intStr index), .cI .dD .cM .none,
          .aSym "SP", .cI .dA .cM .none, .cI .dM .cD .none,
          .aSym "SP", .cI .dM .cMp1 .none]
  else Option.none

/-- `generate_pop`.  `Except.error` is the `ValueError` raised for the
`constant` segment; `.ok none` is Python's implicit `None` return for an
unknown segment. -/
def generatePop (file : String) (segment : String) (index : Int) :
    Except String (Option (List AsmLine)) :=
  if segment = "constant" then .error "Cannot pop to constant segment"
  else if segment ∈ ["local", "argument", "this", "that"] then
    let pointer :=
      if segment = "local" then "LCL"
      else if segment = "argument" then "ARG"
      else if segment = "this" then "THIS"
      else "THAT"
    .ok (some [.comment ("pop " ++ segment ++ " " ++ intStr index),
               .aSym pointer, .cI .dD .cM .none,
               .aNum index, .cI .dD .cDpA .none,
               .aSym "R13", .cI .dM .cD .none,
               .aSym "SP", .cI .dM .cMm1 .none, .cI .dA .cM .none, .cI .dD .cM .none,
               .aSym "R13", .cI .dA .cM .none, .cI .dM .cD .none])
  else if segment = "temp" then
    .ok (some [.comment ("pop temp " ++ intStr index),
               .aSym "SP", .cI .dM .cMm1 .none, .cI .dA .cM .none, .cI .dD .cM .none,
               .aNum (5 + index), .cI .dM .cD .none])
  else if segment = "pointer" then
    let pointer := if index = 0 then "THIS" else "THAT"
    .ok (some [.comment ("pop pointer " ++ intStr index),
               .aSym "SP", .cI .dM .cMm1 .none, .cI .dA .cM .none, .cI .dD .cM .none,
               .aSym pointer, .cI .dM .cD .none])
  else if segment = "static" then
    .ok (some [.comment ("pop static " ++ intStr index),
               .aSym "SP", .cI .dM .cMm1 .none, .cI .dA .cM .none, .cI .dD .cM .none,
               .aSym (file ++ "." ++ intStr index), .cI .dM .cD .none])
  else .ok Option.none

/-- `generate_label`: the label is scoped to the current function. -/
def generateLabel (st : GenState) (l : String) : List AsmLine :=
  [.comment ("label " ++ l), .labelDecl (st.currentFunction ++ "$" ++ l)]

/-- `generate_goto`. -/
def generateGoto (st : GenState) (l : String) : List AsmLine :=
  [.comment ("goto " ++ l),
   .aSym (st.currentFunction ++ "$" ++ l), .cI .none .c0 .jmp]

/-- `generate_if_goto`: pop one word, jump when it is non-zero (`JNE`). -/
def generateIfGoto (st : GenState) (l : String) : List AsmLine :=
  [.comment ("if-goto " ++ l),
   .aSym "SP", .cI .dM .cMm1 .none, .cI .dA .cM .none, .cI .dD .cM .none,
   .aSym (st.currentFunction ++ "$" ++ l), .cI .none .cD .jne]

/-- The five-line block pushing a zero onto the stack (used by
`generate_function`'s local-initialisation loop and the bootstrap). -/
def pushZeroLines : List AsmLine :=
  [.aSym "SP", .cI .dA .cM .none, .cI .dM .c0 .none,
   .aSym "SP", .cI .dM .cMp1 .none]

/-- `for i in range(k): asm += pushZeroLines`. -/
def pushZeroBlocks : Nat → List AsmLine
  | 0 => []
  | k + 1 => pushZeroLines ++ pushZeroBlocks k

/-- `generate_function`: entry label, then `nLocals` zero-pushes; records
the current function for label scoping (Python `range` of a negative number
is empty, hence `.toNat`). -/
def generateFunction (st : GenState) (name : String) (nLocals : Int) :
    List AsmLine × GenState :=
  ([.comment ("function " ++ name ++ " " ++ intStr nLocals),
    .labelDecl name] ++ pushZeroBlocks nLocals.toNat,
   { st with currentFunction := name })

/-- The seven-line block pushing a saved segment pointer (the
`for segment in ['LCL','ARG','THIS','THAT']` loop body of `generate_call`). -/
def pushSegLines (s : String) : List AsmLine :=
  [.aSym s, .cI .dD .cM .none,
   .aSym "SP", .cI .dA .cM .none, .cI .dM .cD .none,
   .aSym "SP", .cI .dM .cMp1 .none]

/-- `generate_call`: push the return address, save LCL/ARG/THIS/THAT, set
`ARG = SP - nArgs - 5`, set `LCL = SP`, jump to the callee, place the
per-call-site return label. -/
def generateCall (st : GenState) (name : String) (nArgs : Int) :
    List AsmLine × GenState :=
  let returnLabel := name ++ "$ret." ++ natStr st.returnCounter
  ([.comment ("call " ++ name ++ " " ++ intStr nArgs),
    .aSym returnLabel, .cI .dD .cA .none,
    .aSym "SP", .cI .dA .cM .none, .cI .dM .cD .none,
    .aSym "SP", .cI .dM .cMp1 .none] ++
   (["LCL", "ARG", "THIS", "THAT"].map pushSegLines).flatten ++
   [.aSym "SP", .cI .dD .cM .none,
    .aNum (nArgs + 5), .cI .dD .cDmA .none,
    .aSym "ARG", .cI .dM .cD .none,
    .aSym "SP", .cI .dD .cM .none,
    .aSym "LCL", .cI .dM .cD .none,
    .aSym name, .cI .none .c0 .jmp,
    .labelDecl returnLabel],
   { st with returnCounter := st.returnCounter + 1 })

/-- One seven-line restore block of `generate_return`
(`RAM[seg] = *(FRAME - offset)`). -/
def restoreLines (p : Nat × String) : List AsmLine :=
  [.aSym "R13", .cI .dD .cM .none,
   .aNum (p.1 : Int), .cI .dA .cDmA .none, .cI .dD .cM .none,
   .aSym p.2, .cI .dM .cD .none]

/-- `generate_return`: freeze FRAME in R13, fetch the return address into
R14, pop the return value into `*ARG`, set `SP = ARG + 1`, restore
THAT/THIS/ARG/LCL from FRAME-1..FRAME-4, jump to R14. -/
def generateReturn : List AsmLine :=
  [.comment "return",
   .aSym "LCL", .cI .dD .cM .none, .aSym "R13", .cI .dM .cD .none,
   .aNum 5, .cI .dA .cDmA .none, .cI .dD .cM .none, .aSym "R14", .cI .dM .cD .none,
   .aSym "SP", .cI .dM .cMm1 .none, .cI .dA .cM .none, .cI .dD .cM .none,
   .aSym "ARG", .cI .dA .cM .none, .cI .dM .cD .none,
   .aSym "ARG", .cI .dD .cMp1 .none, .aSym "SP", .cI .dM .cD .none] ++
  ([(1, "THAT"), (2, "THIS"), (3, "ARG"), (4, "LCL")].map restoreLines).flatten ++
  [.aSym "R14", .cI .dA .cM .none, .cI .none .c0 .jmp]

/-- `CodeGenerator.generate`: dispatch on the command. -/
def generate (cmd : Command) (st : GenState) :
    Except String (Option (List AsmLine)) × GenState :=
  match cmd with
  | .arithmetic op =>
    let (o, st') := generateArithmetic st op
    (.ok o, st')
  | .push s i => (.ok (generatePush st.currentFile s i), st)
  | .pop s i => (generatePop st.currentFile s i, st)
  | .label l => (.ok (some (generateLabel st l)), st)
  | .goto l => (.ok (some (generateGoto st l)), st)
  | .ifGoto l => (.ok (some (generateIfGoto st l)), st)
  | .function n k =>
    let (ls, st') := generateFunction st n k
    (.ok (some ls), st')
  | .call n a =>
    let (ls, st') := generateCall st n a
    (.ok (some ls), st')
  | .ret => (.ok (some generateReturn), st)

/-- `CodeGenerator.init`: the bootstrap prologue (SP := 256, then a full
call of `Sys.init` with dummy saved pointers). -/
def bootstrapAsm : List AsmLine :=
  [.comment "===== Bootstrap: Initialize VM State =====",
   .aNum 256, .cI .dD .cA .none, .aSym "SP", .cI .dM .cD .none, .blank,
   .comment "Call Sys.init",
   .aSym "Sys.init$ret.bootstrap", .cI .dD .cA .none,
   .aSym "SP", .cI .dA .cM .none, .cI .dM .cD .none,
   .aSym "SP", .cI .dM .cMp1 .none] ++
  pushZeroBlocks 4 ++
  [.aSym "SP", .cI .dD .cM .none,
   .aNum 5, .cI .dD .cDmA .none,
   .aSym "ARG", .cI .dM .cD .none,
   .aSym "SP", .cI .dD .cM .none,
   .aSym "LCL", .cI .dM .cD .none,
   .aSym "Sys.init", .cI .none .c0 .jmp,
   .labelDecl "Sys.init$ret.bootstrap"]

/-! ## Translator driver (`vm_translator.py : VMTranslator.translate`)

The per-unit loop is

    while parser.has_more_commands():
        parser.advance()
        if parser.current_command:
            out.write(self.code_gen.generate(parser.current_command))

`Parser.advance` skips blank/comment lines and only overwrites
`current_command` when it actually parses a command line, so when the lines
after the final command are all blanks/comments the loop generates the
*stale* previous command a second time.  `translateLoop` reproduces this:
`cur` is `parser.current_command`.  A raised exception (parse error,
pop-to-constant, or writing `None`) aborts the run with `.error`. -/

/-- Feed `generate`'s result to `out.write`: writing Python `None` raises
`TypeError`. -/
def writeAsm (r : Except String (Option (List AsmLine))) :
    Except String (List AsmLine) :=
  match r with
  | .error e => .error e
  | .ok Option.none => .error "TypeError: write() argument must be str, not None"
  | .ok (Option.some ls) => .ok ls

/-- The per-unit `while` loop of `VMTranslator.translate`. -/
def translateLoop (lines : List String) (cur : Option Command) (st : GenState) :
    Except String (List AsmLine × GenState) :=
  match lines with
  | [] => .ok ([], st)
  | line :: rest =>
    let l := pyStrip line
    if l = "" ∨ startsSlashSlash l then
      match rest with
      | [] =>
        -- `advance` exhausted the input without parsing a new command;
        -- the loop body still runs on the stale `current_command`.
        match cur with
        | Option.none => .ok ([], st)
        | Option.some c =>
          match generate c st with
          | (r, st') => (writeAsm r).map (fun ls => (ls, st'))
      | _ :: _ => translateLoop rest cur st
    else
      match parseCommand (stripInlineComment l) with
      | .error e => .error e
      | .ok c =>
        match generate c st with
        | (r, st') =>
          match writeAsm r with
          | .error e => .error e
          | .ok ls =>
            (translateLoop rest (some c) st').map
              (fun p => (ls ++ p.1, p.2))

/-- Translate the units of one run in order: write the bootstrap once, then
for each unit set `current_file` to the unit's basename without `.vm`, write
the file-header comment, and run the per-unit loop with a fresh parser
(`current_command` starts as `None` for every unit). -/
def translateUnits (units : List (String × List String)) (st : GenState) :
    Except String (List AsmLine × GenState) :=
  match units with
  | [] => .ok ([], st)
  | (name, lines) :: rest =>
    let st1 := { st with currentFile := pyEraseVm name }
    match translateLoop lines Option.none st1 with
    | .error e => .error e
    | .ok (out, st2) =>
      (translateUnits rest st2).map
        (fun p => ((AsmLine.blank :: AsmLine.comment ("===== File: " ++ name ++ " =====") :: out) ++ p.1, p.2))

/-- A whole translation run over one or more units, exactly as a fresh
`VMTranslator` performs it: a fresh `CodeGenerator()` (both counters zero),
the bootstrap prologue, then every unit in order. -/
def translateRun (units : List (String × List String)) :
    Except String (List AsmLine) :=
  (translateUnits units (mkCodeGenerator Option.none)).map
    (fun p => bootstrapAsm ++ p.1)

/-! ## The command stream a unit delivers to the generator

`deliveredCommands` computes the exact command sequence the per-unit loop
feeds to `generate` — including the duplicated stale final command when
blank/comment lines follow it.  `parsedCommands` is the clean stream: each
non-blank, non-comment line parsed once, in order. -/

/-- The commands the driver loop delivers (mirrors `translateLoop`). -/
def deliveredAux (lines : List String) (cur : Option Command) :
    Except String (List Command) :=
  match lines with
  | [] => .ok []
  | line :: rest =>
    let l := pyStrip line
    if l = "" ∨ startsSlashSlash l then
      match rest with
      | [] =>
        match cur with
        | Option.none => .ok []
        | Option.some c => .ok [c]
      | _ :: _ => deliveredAux rest cur
    else
      match parseCommand (stripInlineComment l) with
      | .error e => .error e
      | .ok c => (deliveredAux rest (some c)).map (c :: ·)

/-- The commands a unit's text delivers to the generator. -/
def deliveredCommands (lines : List String) : Except String (List Command) :=
  deliveredAux lines Option.none

/-- The unit's non-blank, non-comment lines, parsed in order (what the spec
describes: one command per command line, each exactly once). -/
def parsedCommands (lines : List String) : Except String (List Command) :=
  match lines with
  | [] => .ok []
  | line :: rest =>
    let l := pyStrip line
    if l = "" ∨ startsSlashSlash l then parsedCommands rest
    else
      match parseCommand (stripInlineComment l) with
      | .error e => .error e
      | .ok c => (parsedCommands rest).map (c :: ·)

/-- Generate a list of commands in sequence, threading the generator state
(the core of the driver loop, separated from line handling). -/
def genList (cmds : List Command) (st : GenState) :
    Except String (List AsmLine × GenState) :=
  match cmds with
  | [] => .ok ([], st)
  | c :: cs =>
    match generate c st with
    | (r, st') =>
      match writeAsm r with
      | .error e => .error e
      | .ok ls => (genList cs st').map (fun p => (ls ++ p.1, p.2))

/-- A successful driver loop is generation over the delivered command
stream (on an exception the two can surface different error messages, since
the loop raises at the first offending step, so only the success direction
holds). -/
theorem translateLoop_ok (lines : List String) (cur : Option Command)
    (st : GenState) (p : List AsmLine × GenState)
    (h : translateLoop lines cur st = .ok p) :
    ∃ cmds, deliveredAux lines cur = .ok cmds ∧ genList cmds st = .ok p := by
  induction lines generalizing cur st p with
  | nil =>
    rw [translateLoop] at h
    exact ⟨[], rfl, h⟩
  | cons line rest ih =>
    rw [translateLoop.eq_def] at h
    rw [deliveredAux.eq_def]
    by_cases hj : pyStrip line = "" ∨ startsSlashSlash (pyStrip line)
    · simp only [hj, if_true] at h ⊢
      match rest with
      | [] =>
        match cur with
        | Option.none =>
          refine ⟨[], rfl, ?_⟩
          simpa [genList] using h
        | Option.some c =>
          refine ⟨[c], rfl, ?_⟩
          dsimp only at h
          match hg : generate c st with
          | (r, st') =>
            rw [hg] at h
            dsimp only at h
            match r with
            | .error e => simp [writeAsm, Except.map] at h
            | .ok Option.none => simp [writeAsm, Except.map] at h
            | .ok (Option.some ls) =>
              simp only [writeAsm, Except.map] at h
              simp [genList, hg, writeAsm, Except.map, ← h]
      | r :: rs => exact ih cur st p h
    · simp only [hj, if_false] at h ⊢
      match hp : parseCommand (stripInlineComment (pyStrip line)) with
      | .error e => rw [hp] at h; exact absurd h (by simp)
      | .ok c =>
        rw [hp] at h
        dsimp only at h
        match hg : generate c st with
        | (r, st') =>
          rw [hg] at h
          dsimp only at h
          match r with
          | .error e => simp [writeAsm] at h
          | .ok Option.none => simp [writeAsm] at h
          | .ok (Option.some ls) =>
            simp only [writeAsm] at h
            match ht : translateLoop rest (some c) st' with
            | .error e => rw [ht] at h; simp [Except.map] at h
            | .ok q =>
              rw [ht] at h
              simp only [Except.map] at h
              obtain ⟨cmds, hd, hgl⟩ := ih (some c) st' q ht
              refine ⟨c :: cmds, by simp [hd, Except.map], ?_⟩
              simp only [genList, hg, writeAsm, hgl, Except.map]
              exact h

/-! ## Word-arithmetic facts about the ALU masking -/

theorem toUnsigned_lt (i : Int) : toUnsigned i < 65536 := by
  simp only [toUnsigned]
  omega

theorem toSigned_of_lt (w : Nat) (h : w < 32768) : toSigned w = (w : Int) := by
  simp only [toSigned]
  rw [Nat.mod_eq_of_lt (by omega)]
  simp [h]

theorem toUnsigned_natCast (n : Nat) (h : n < 65536) : toUnsigned (n : Int) = n := by
  simp only [toUnsigned]
  omega

theorem toUnsigned_toSigned_add_one (w : Nat) (h : w < 65535) :
    toUnsigned (toSigned w + 1) = w + 1 := by
  simp only [toSigned, toUnsigned]
  rw [Nat.mod_eq_of_lt (by omega)]
  by_cases h2 : w < 32768 <;> simp [h2] <;> omega

theorem toUnsigned_toSigned_sub_one (w : Nat) (h1 : 1 ≤ w) (h2 : w < 65536) :
    toUnsigned (toSigned w - 1) = w - 1 := by
  simp only [toSigned, toUnsigned]
  rw [Nat.mod_eq_of_lt (by omega)]
  by_cases h3 : w < 32768 <;> simp [h3] <;> omega

theorem toUnsigned_toSigned_add (a b : Nat) (ha : a < 32768) (hb : b < 32768) :
    toUnsigned (toSigned a + toSigned b) = a + b := by
  rw [toSigned_of_lt a ha, toSigned_of_lt b hb]
  simp only [toUnsigned]
  omega

theorem toUnsigned_toSigned_sub (a b : Nat) (ha : a < 32768) (hb : b ≤ a) :
    toUnsigned (toSigned a - toSigned b) = a - b := by
  rw [toSigned_of_lt a ha, toSigned_of_lt b (by omega)]
  simp only [toUnsigned]
  omega

theorem pushConstant_exec (env : String → Nat) (hSP : env "SP" = 0)
    (f : String) (i : Int) (m : Mach) (sp : Nat)
    (hsp : m.ram 0 = sp) (hsp1 : 1 ≤ sp) (hsp2 : sp < 65535)
    (hi0 : 0 ≤ i) (hi1 : i < 32768) :
    (execAsm env ((generatePush f "constant" i).getD []) m).ram 0 = sp + 1 ∧
    (execAsm env ((generatePush f "constant" i).getD []) m).ram sp = i.toNat ∧
    ∀ b, b ≠ 0 → b ≠ sp →
      (execAsm env ((generatePush f "constant" i).getD []) m).ram b = m.ram b := by
  have hi2 : i.toNat < 32768 := by omega
  simp only [generatePush, if_pos, Option.getD_some, execAsm, List.foldl_cons,
    List.foldl_nil, step, Comp.usesM, Dest.hasA, Dest.hasD, Dest.hasM, compInt,
    hSP, Nat.zero_mod, if_true, if_false, Bool.false_eq_true]
  rw [hsp, Nat.mod_eq_of_lt hi2, toUnsigned_natCast i.toNat (by omega),
    toUnsigned_natCast i.toNat (by omega), toUnsigned_natCast sp (by omega),
    wr_ne m.ram sp i.toNat 0 (by omega), hsp, toUnsigned_toSigned_add_one sp hsp2]
  refine ⟨wr_same _ _ _, ?_, ?_⟩
  · rw [wr_ne _ 0 (sp + 1) sp (by omega), wr_same]
  · intro b hb0 hbsp
    rw [wr_ne _ 0 (sp + 1) b hb0, wr_ne _ sp i.toNat b hbsp]

theorem execAsm_append (env : String → Nat) (a b : List AsmLine) (m : Mach) :
    execAsm env (a ++ b) m = execAsm env b (execAsm env a m) := by
  simp [execAsm, List.foldl_append]

/-- Effect of the recurring block `@sym / D=M / @SP / A=M / M=D / @SP /
M=M+1` (push the word at a symbolic cell): covers `push pointer`,
`push static`, and the saved-pointer pushes inside `generate_call`. -/
theorem pushSymBlock_exec (env : String → Nat) (hSP : env "SP" = 0)
    (c sym : String) (m : Mach) (sp a : Nat)
    (henv : env sym = a) (ha : a < 32768) (hv : m.ram a < 65536)
    (hsp : m.ram 0 = sp) (hsp1 : 1 ≤ sp) (hsp2 : sp < 65535) :
    ((execAsm env [.comment c, .aSym sym, .cI .dD .cM .none,
        .aSym "SP", .cI .dA .cM .none, .cI .dM .cD .none,
        .aSym "SP", .cI .dM .cMp1 .none] m).ram 0 = sp + 1 ∧
     (execAsm env [.comment c, .aSym sym, .cI .dD .cM .none,
        .aSym "SP", .cI .dA .cM .none, .cI .dM .cD .none,
        .aSym "SP", .cI .dM .cMp1 .none] m).ram sp = m.ram a ∧
     ∀ b, b ≠ 0 → b ≠ sp →
       (execAsm env [.comment c, .aSym sym, .cI .dD .cM .none,
          .aSym "SP", .cI .dA .cM .none, .cI .dM .cD .none,
          .aSym "SP", .cI .dM .cMp1 .none] m).ram b = m.ram b) := by
  simp only [execAsm, List.foldl_cons, List.foldl_nil, step, Comp.usesM,
    Dest.hasA, Dest.hasD, Dest.hasM, compInt, hSP, henv, Nat.zero_mod,
    if_true, if_false, Bool.false_eq_true]
  rw [Nat.mod_eq_of_lt ha, hsp, toUnsigned_natCast sp (by omega),
    toUnsigned_natCast (m.ram a) hv, toUnsigned_natCast (m.ram a) hv,
    wr_ne m.ram sp (m.ram a) 0 (by omega), hsp,
    toUnsigned_toSigned_add_one sp hsp2]
  refine ⟨wr_same _ _ _, ?_, ?_⟩
  · rw [wr_ne _ 0 (sp + 1) sp (by omega), wr_same]
  · intro b hb0 hbsp
    rw [wr_ne _ 0 (sp + 1) b hb0, wr_ne _ sp (m.ram a) b hbsp]

/-- Effect of the pointer-based push block (`push local/argument/this/that`):
`@ptr / D=M / @i / A=D+A / D=M /` push suffix. -/
theorem pushBaseBlock_exec (env : String → Nat) (hSP : env "SP" = 0)
    (c ptr : String) (i : Int) (m : Mach) (sp pa base : Nat)
    (henv : env ptr = pa) (hpa : pa < 32768)
    (hbase : m.ram pa = base) (hbase2 : base < 32768)
    (hi0 : 0 ≤ i) (hi1 : i < 32768)
    (hv : m.ram (base + i.toNat) < 65536)
    (hsp : m.ram 0 = sp) (hsp1 : 1 ≤ sp) (hsp2 : sp < 65535) :
    ((execAsm env [.comment c, .aSym ptr, .cI .dD .cM .none,
        .aNum i, .cI .dA .cDpA .none, .cI .dD .cM .none,
        .aSym "SP", .cI .dA .cM .none, .cI .dM .cD .none,
        .aSym "SP", .cI .dM .cMp1 .none] m).ram 0 = sp + 1 ∧
     (execAsm env [.comment c, .aSym ptr, .cI .dD .cM .none,
        .aNum i, .cI .dA .cDpA .none, .cI .dD .cM .none,
        .aSym "SP", .cI .dA .cM .none, .cI .dM .cD .none,
        .aSym "SP", .cI .dM .cMp1 .none] m).ram sp = m.ram (base + i.toNat) ∧
     ∀ b, b ≠ 0 → b ≠ sp →
       (execAsm env [.comment c, .aSym ptr, .cI .dD .cM .none,
          .aNum i, .cI .dA .cDpA .none, .cI .dD .cM .none,
          .aSym "SP", .cI .dA .cM .none, .cI .dM .cD .none,
          .aSym "SP", .cI .dM .cMp1 .none] m).ram b = m.ram b) := by
  have hi2 : i.toNat < 32768 := by omega
  simp only [execAsm, List.foldl_cons, List.foldl_nil, step, Comp.usesM,
    Dest.hasA, Dest.hasD, Dest.hasM, compInt, hSP, henv, Nat.zero_mod,
    if_true, if_false, Bool.false_eq_true]
  rw [Nat.mod_eq_of_lt hpa, hbase, Nat.mod_eq_of_lt hi2,
    toUnsigned_natCast base (by omega),
    toUnsigned_toSigned_add base i.toNat hbase2 hi2,
    toUnsigned_natCast (m.ram (base + i.toNat)) hv,
    toUnsigned_natCast (m.ram (base + i.toNat)) hv,
    hsp, toUnsigned_natCast sp (by omega),
    wr_ne m.ram sp (m.ram (base + i.toNat)) 0 (by omega), hsp,
    toUnsigned_toSigned_add_one sp hsp2]
  refine ⟨wr_same _ _ _, ?_, ?_⟩
  · rw [wr_ne _ 0 (sp + 1) sp (by omega), wr_same]
  · intro b hb0 hbsp
    rw [wr_ne _ 0 (sp + 1) b hb0, wr_ne _ sp (m.ram (base + i.toNat)) b hbsp]

/-- Effect of the direct-address push block (`push temp`):
`@(5+i) / D=M /` push suffix. -/
theorem pushTempBlock_exec (env : String → Nat) (hSP : env "SP" = 0)
    (c : String) (i : Int) (m : Mach) (sp : Nat)
    (hi0 : 0 ≤ i) (hi1 : 5 + i < 32768)
    (hv : m.ram (5 + i).toNat < 65536)
    (hsp : m.ram 0 = sp) (hsp1 : 1 ≤ sp) (hsp2 : sp < 65535) :
    ((execAsm env [.comment c, .aNum (5 + i), .cI .dD .cM .none,
        .aSym "SP", .cI .dA .cM .none, .cI .dM .cD .none,
        .aSym "SP", .cI .dM .cMp1 .none] m).ram 0 = sp + 1 ∧
     (execAsm env [.comment c, .aNum (5 + i), .cI .dD .cM .none,
        .aSym "SP", .cI .dA .cM .none, .cI .dM .cD .none,
        .aSym "SP", .cI .dM .cMp1 .none] m).ram sp = m.ram (5 + i).toNat ∧
     ∀ b, b ≠ 0 → b ≠ sp →
       (execAsm env [.comment c, .aNum (5 + i), .cI .dD .cM .none,
          .aSym "SP", .cI .dA .cM .none, .cI .dM .cD .none,
          .aSym "SP", .cI .dM .cMp1 .none] m).ram b = m.ram b) := by
  have hi2 : (5 + i).toNat < 32768 := by omega
  simp only [execAsm, List.foldl_cons, List.foldl_nil, step, Comp.usesM,
    Dest.hasA, Dest.hasD, Dest.hasM, compInt, hSP, Nat.zero_mod,
    if_true, if_false, Bool.false_eq_true]
  rw [Nat.mod_eq_of_lt hi2, toUnsigned_natCast (m.ram (5 + i).toNat) hv,
    toUnsigned_natCast (m.ram (5 + i).toNat) hv,
    hsp, toUnsigned_natCast sp (by omega),
    wr_ne m.ram sp (m.ram (5 + i).toNat) 0 (by omega), hsp,
    toUnsigned_toSigned_add_one sp hsp2]
  refine ⟨wr_same _ _ _, ?_, ?_⟩
  · rw [wr_ne _ 0 (sp + 1) sp (by omega), wr_same]
  · intro b hb0 hbsp
    rw [wr_ne _ 0 (sp + 1) b hb0, wr_ne _ sp (m.ram (5 + i).toNat) b hbsp]

/-- Effect of the zero-push block used by `generate_function` and the
bootstrap (`@SP / A=M / M=0 / @SP / M=M+1`). -/
theorem pushZeroLines_exec (env : String → Nat) (hSP : env "SP" = 0)
    (m : Mach) (sp : Nat)
    (hsp : m.ram 0 = sp) (hsp1 : 1 ≤ sp) (hsp2 : sp < 65535) :
    ((execAsm env pushZeroLines m).ram 0 = sp + 1 ∧
     (execAsm env pushZeroLines m).ram sp = 0 ∧
     ∀ b, b ≠ 0 → b ≠ sp →
       (execAsm env pushZeroLines m).ram b = m.ram b) := by
  simp only [pushZeroLines, execAsm, List.foldl_cons, List.foldl_nil, step,
    Comp.usesM, Dest.hasA, Dest.hasD, Dest.hasM, compInt, hSP, Nat.zero_mod,
    if_true, if_false, Bool.false_eq_true]
  rw [hsp, toUnsigned_natCast sp (by omega),
    show toUnsigned 0 = 0 from rfl,
    wr_ne m.ram sp 0 0 (by omega), hsp,
    toUnsigned_toSigned_add_one sp hsp2]
  refine ⟨wr_same _ _ _, ?_, ?_⟩
  · rw [wr_ne _ 0 (sp + 1) sp (by omega), wr_same]
  · intro b hb0 hbsp
    rw [wr_ne _ 0 (sp + 1) b hb0, wr_ne _ sp 0 b hbsp]

/-- Effect of the pointer-based pop block (`pop local/argument/this/that`):
compute `base+i` into R13, decrement SP, read the popped word, store it at
the computed address.  `htarget` is the proviso that the destination is not
the SP cell itself (address 0). -/
theorem popBaseBlock_exec (env : String → Nat) (hSP : env "SP" = 0)
    (hR13 : env "R13" = 13) (c ptr : String) (i : Int) (m : Mach) (sp pa base : Nat)
    (henv : env ptr = pa) (hpa : pa < 32768)
    (hbase : m.ram pa = base) (hbase2 : base < 32768)
    (hi0 : 0 ≤ i) (hi1 : i < 32768)
    (htarget : base + i.toNat ≠ 0)
    (hv : m.ram (sp - 1) < 65536)
    (hsp : m.ram 0 = sp) (hsp1 : 15 ≤ sp) (hsp2 : sp < 65536) :
    ((execAsm env [.comment c, .aSym ptr, .cI .dD .cM .none,
        .aNum i, .cI .dD .cDpA .none,
        .aSym "R13", .cI .dM .cD .none,
        .aSym "SP", .cI .dM .cMm1 .none, .cI .dA .cM .none, .cI .dD .cM .none,
        .aSym "R13", .cI .dA .cM .none, .cI .dM .cD .none] m).ram 0 = sp - 1 ∧
     (execAsm env [.comment c, .aSym ptr, .cI .dD .cM .none,
        .aNum i, .cI .dD .cDpA .none,
        .aSym "R13", .cI .dM .cD .none,
        .aSym "SP", .cI .dM .cMm1 .none, .cI .dA .cM .none, .cI .dD .cM .none,
        .aSym "R13", .cI .dA .cM .none, .cI .dM .cD .none] m).ram (base + i.toNat) =
       m.ram (sp - 1) ∧
     ∀ b, b ≠ 0 → b ≠ 13 → b ≠ base + i.toNat →
       (execAsm env [.comment c, .aSym ptr, .cI .dD .cM .none,
          .aNum i, .cI .dD .cDpA .none,
          .aSym "R13", .cI .dM .cD .none,
          .aSym "SP", .cI .dM .cMm1 .none, .cI .dA .cM .none, .cI .dD .cM .none,
          .aSym "R13", .cI .dA .cM .none, .cI .dM .cD .none] m).ram b = m.ram b) := by
  have hi2 : i.toNat < 32768 := by omega
  have d2 : ¬(sp - 1 = 13) := by omega
  have d3 : ¬(sp - 1 = 0) := by omega
  have d5 : ¬((0 : Nat) = base + i.toNat) := by omega
  have m1 : i.toNat % 32768 = i.toNat := Nat.mod_eq_of_lt hi2
  have m2 : pa % 32768 = pa := Nat.mod_eq_of_lt hpa
  have m3 : (13 : Nat) % 32768 = 13 := by norm_num
  have d6 : ¬((13 : Nat) = 0) := by omega
  have d7 : ¬((0 : Nat) = 13) := by omega
  have tU1 : toUnsigned (base : Int) = base := toUnsigned_natCast _ (by omega)
  have tU2 : toUnsigned (toSigned base + toSigned i.toNat) = base + i.toNat :=
    toUnsigned_toSigned_add base i.toNat hbase2 hi2
  have tU3 : toUnsigned ((base + i.toNat : Nat) : Int) = base + i.toNat :=
    toUnsigned_natCast _ (by omega)
  have tU4 : toUnsigned (toSigned sp - 1) = sp - 1 :=
    toUnsigned_toSigned_sub_one sp (by omega) hsp2
  have tU5 : toUnsigned ((sp - 1 : Nat) : Int) = sp - 1 :=
    toUnsigned_natCast _ (by omega)
  have tU6 : toUnsigned ((m.ram (sp - 1) : Nat) : Int) = m.ram (sp - 1) :=
    toUnsigned_natCast _ hv
  refine ⟨?_, ?_, ?_⟩
  · simp only [execAsm, List.foldl_cons, List.foldl_nil, step, Comp.usesM,
      Dest.hasA, Dest.hasD, Dest.hasM, compInt, hSP, hR13, henv, Nat.zero_mod,
      if_true, if_false, Bool.false_eq_true, wr, m1, m2, m3, hbase, hsp,
      tU1, tU2, tU3, tU4, tU5, tU6, d2, d3, d5, d6, d7]
  · simp only [execAsm, List.foldl_cons, List.foldl_nil, step, Comp.usesM,
      Dest.hasA, Dest.hasD, Dest.hasM, compInt, hSP, hR13, henv, Nat.zero_mod,
      if_true, if_false, Bool.false_eq_true, wr, m1, m2, m3, hbase, hsp,
      tU1, tU2, tU3, tU4, tU5, tU6, d2, d3, d5, d6, d7]
  · intro b hb0 hb13 hbt
    simp only [execAsm, List.foldl_cons, List.foldl_nil, step, Comp.usesM,
      Dest.hasA, Dest.hasD, Dest.hasM, compInt, hSP, hR13, henv, Nat.zero_mod,
      if_true, if_false, Bool.false_eq_true, wr, m1, m2, m3, hbase, hsp,
      tU1, tU2, tU3, tU4, tU5, tU6, d2, d3, d5, d6, d7, hb0, hb13, hbt]

/-- Effect of the `pop temp` block: decrement SP, read the popped word,
store it at absolute address `5 + i`. -/
theorem popTempBlock_exec (env : String → Nat) (hSP : env "SP" = 0)
    (c : String) (i : Int) (m : Mach) (sp : Nat)
    (hi0 : 0 ≤ i) (hi1 : 5 + i < 32768)
    (hv : m.ram (sp - 1) < 65536)
    (hsp : m.ram 0 = sp) (hsp1 : 15 ≤ sp) (hsp2 : sp < 65536) :
    ((execAsm env [.comment c,
        .aSym "SP", .cI .dM .cMm1 .none, .cI .dA .cM .none, .cI .dD .cM .none,
        .aNum (5 + i), .cI .dM .cD .none] m).ram 0 = sp - 1 ∧
     (execAsm env [.comment c,
        .aSym "SP", .cI .dM .cMm1 .none, .cI .dA .cM .none, .cI .dD .cM .none,
        .aNum (5 + i), .cI .dM .cD .none] m).ram (5 + i).toNat = m.ram (sp - 1) ∧
     ∀ b, b ≠ 0 → b ≠ (5 + i).toNat →
       (execAsm env [.comment c,
          .aSym "SP", .cI .dM .cMm1 .none, .cI .dA .cM .none, .cI .dD .cM .none,
          .aNum (5 + i), .cI .dM .cD .none] m).ram b = m.ram b) := by
  have m1 : (5 + i).toNat % 32768 = (5 + i).toNat := Nat.mod_eq_of_lt (by omega)
  have d1 : ¬(sp - 1 = 0) := by omega
  have d2 : ¬((0 : Nat) = (5 + i).toNat) := by omega
  have tU4 : toUnsigned (toSigned sp - 1) = sp - 1 :=
    toUnsigned_toSigned_sub_one sp (by omega) hsp2
  have tU5 : toUnsigned ((sp - 1 : Nat) : Int) = sp - 1 :=
    toUnsigned_natCast _ (by omega)
  have tU6 : toUnsigned ((m.ram (sp - 1) : Nat) : Int) = m.ram (sp - 1) :=
    toUnsigned_natCast _ hv
  refine ⟨?_, ?_, ?_⟩
  · simp only [execAsm, List.foldl_cons, List.foldl_nil, step, Comp.usesM,
      Dest.hasA, Dest.hasD, Dest.hasM, compInt, hSP, Nat.zero_mod,
      if_true, if_false, Bool.false_eq_true, wr, m1, hsp, tU4, tU5, tU6, d1, d2]
  · simp only [execAsm, List.foldl_cons, List.foldl_nil, step, Comp.usesM,
      Dest.hasA, Dest.hasD, Dest.hasM, compInt, hSP, Nat.zero_mod,
      if_true, if_false, Bool.false_eq_true, wr, m1, hsp, tU4, tU5, tU6, d1, d2]
  · intro b hb0 hbt
    simp only [execAsm, List.foldl_cons, List.foldl_nil, step, Comp.usesM,
      Dest.hasA, Dest.hasD, Dest.hasM, compInt, hSP, Nat.zero_mod,
      if_true, if_false, Bool.false_eq_true, wr, m1, hsp, tU4, tU5, tU6, d1, d2,
      hb0, hbt]

/-- Effect of the `pop pointer` / `pop static` block: decrement SP, read the
popped word, store it at the symbolic cell `sym` (resolved to address `a`). -/
theorem popSymBlock_exec (env : String → Nat) (hSP : env "SP" = 0)
    (c sym : String) (m : Mach) (sp a : Nat)
    (henv : env sym = a) (ha : a < 32768) (ha0 : a ≠ 0)
    (hv : m.ram (sp - 1) < 65536)
    (hsp : m.ram 0 = sp) (hsp1 : 15 ≤ sp) (hsp2 : sp < 65536) :
    ((execAsm env [.comment c,
        .aSym "SP", .cI .dM .cMm1 .none, .cI .dA .cM .none, .cI .dD .cM .none,
        .aSym sym, .cI .dM .cD .none] m).ram 0 = sp - 1 ∧
     (execAsm env [.comment c,
        .aSym "SP", .cI .dM .cMm1 .none, .cI .dA .cM .none, .cI .dD .cM .none,
        .aSym sym, .cI .dM .cD .none] m).ram a = m.ram (sp - 1) ∧
     ∀ b, b ≠ 0 → b ≠ a →
       (execAsm env [.comment c,
          .aSym "SP", .cI .dM .cMm1 .none, .cI .dA .cM .none, .cI .dD .cM .none,
          .aSym sym, .cI .dM .cD .none] m).ram b = m.ram b) := by
  have m1 : a % 32768 = a := Nat.mod_eq_of_lt ha
  have d1 : ¬(sp - 1 = 0) := by omega
  have d2 : ¬((0 : Nat) = a) := fun h => ha0 h.symm
  have tU4 : toUnsigned (toSigned sp - 1) = sp - 1 :=
    toUnsigned_toSigned_sub_one sp (by omega) hsp2
  have tU5 : toUnsigned ((sp - 1 : Nat) : Int) = sp - 1 :=
    toUnsigned_natCast _ (by omega)
  have tU6 : toUnsigned ((m.ram (sp - 1) : Nat) : Int) = m.ram (sp - 1) :=
    toUnsigned_natCast _ hv
  refine ⟨?_, ?_, ?_⟩
  · simp only [execAsm, List.foldl_cons, List.foldl_nil, step, Comp.usesM,
      Dest.hasA, Dest.hasD, Dest.hasM, compInt, hSP, henv, Nat.zero_mod,
      if_true, if_false, Bool.false_eq_true, wr, m1, hsp, tU4, tU5, tU6, d1, d2]
  · simp only [execAsm, List.foldl_cons, List.foldl_nil, step, Comp.usesM,
      Dest.hasA, Dest.hasD, Dest.hasM, compInt, hSP, henv, Nat.zero_mod,
      if_true, if_false, Bool.false_eq_true, wr, m1, hsp, tU4, tU5, tU6, d1, d2]
  · intro b hb0 hbt
    simp only [execAsm, List.foldl_cons, List.foldl_nil, step, Comp.usesM,
      Dest.hasA, Dest.hasD, Dest.hasM, compInt, hSP, henv, Nat.zero_mod,
      if_true, if_false, Bool.false_eq_true, wr, m1, hsp, tU4, tU5, tU6, d1, d2,
      hb0, hbt]

/-! ## SP-effect lemmas for arbitrary push/pop blocks (claim C3)

These versions place no bound on the index or the segment base: the ALU
masking keeps everything defined, and the stack-pointer effect of a push
block is `+1` and of a pop block `-1` as long as the pop's store address is
not the SP cell itself. -/

/-- All RAM cells stay 16-bit words. -/
def Mach.wf (m : Mach) : Prop := ∀ a, m.ram a < 65536

theorem step_wf (env : String → Nat) (m : Mach) (l : AsmLine) (h : m.wf) :
    (step env m l).wf := by
  cases l with
  | aNum n => exact h
  | aSym s => exact h
  | labelDecl s => exact h
  | comment s => exact h
  | blank => exact h
  | cI dest comp jump =>
    intro a
    simp only [step]
    by_cases hM : dest.hasM
    · simp only [hM, if_true, wr]
      by_cases ha : a = (if dest.hasA = true then
          toUnsigned (compInt comp m.D (if comp.usesM = true then m.ram m.A else m.A))
        else m.A)
      · simp [ha, toUnsigned_lt]
      · simp only [ha, if_false]
        exact h a
    · simp only [hM, if_false, Bool.false_eq_true]
      exact h a

theorem execAsm_wf (env : String → Nat) (ls : List AsmLine) (m : Mach) (h : m.wf) :
    (execAsm env ls m).wf := by
  induction ls generalizing m with
  | nil => exact h
  | cons l rest ih => exact ih (step env m l) (step_wf env m l h)

/-- SP effect of the `push constant` block, any index. -/
theorem pushSPConstant_exec (env : String → Nat) (hSP : env "SP" = 0)
    (c : String) (i : Int) (m : Mach) (sp : Nat)
    (hsp : m.ram 0 = sp) (hsp1 : 1 ≤ sp) (hsp2 : sp < 65535) :
    ((execAsm env [.comment c, .aNum i, .cI .dD .cA .none,
        .aSym "SP", .cI .dA .cM .none, .cI .dM .cD .none,
        .aSym "SP", .cI .dM .cMp1 .none] m).ram 0 = sp + 1 ∧
     ∀ b, b ≠ 0 → b ≠ sp →
       (execAsm env [.comment c, .aNum i, .cI .dD .cA .none,
          .aSym "SP", .cI .dA .cM .none, .cI .dM .cD .none,
          .aSym "SP", .cI .dM .cMp1 .none] m).ram b = m.ram b) := by
  have d0 : ¬((0 : Nat) = sp) := by omega
  have tUsp : toUnsigned ((sp : Nat) : Int) = sp := toUnsigned_natCast _ (by omega)
  have tUp1 : toUnsigned (toSigned sp + 1) = sp + 1 :=
    toUnsigned_toSigned_add_one sp (by omega)
  constructor
  · simp only [execAsm, List.foldl_cons, List.foldl_nil, step, Comp.usesM,
      Dest.hasA, Dest.hasD, Dest.hasM, compInt, hSP, Nat.zero_mod,
      if_true, if_false, Bool.false_eq_true, wr, hsp, tUsp, tUp1, d0]
  · intro b hb0 hbsp
    simp only [execAsm, List.foldl_cons, List.foldl_nil, step, Comp.usesM,
      Dest.hasA, Dest.hasD, Dest.hasM, compInt, hSP, Nat.zero_mod,
      if_true, if_false, Bool.false_eq_true, wr, hsp, tUsp, tUp1, d0, hb0, hbsp]

/-- SP effect of the pointer-based push block, any index and base. -/
theorem pushSPBase_exec (env : String → Nat) (hSP : env "SP" = 0)
    (c ptr : String) (i : Int) (m : Mach) (sp : Nat)
    (hsp : m.ram 0 = sp) (hsp1 : 1 ≤ sp) (hsp2 : sp < 65535) :
    ((execAsm env [.comment c, .aSym ptr, .cI .dD .cM .none,
        .aNum i, .cI .dA .cDpA .none, .cI .dD .cM .none,
        .aSym "SP", .cI .dA .cM .none, .cI .dM .cD .none,
        .aSym "SP", .cI .dM .cMp1 .none] m).ram 0 = sp + 1 ∧
     ∀ b, b ≠ 0 → b ≠ sp →
       (execAsm env [.comment c, .aSym ptr, .cI .dD .cM .none,
          .aNum i, .cI .dA .cDpA .none, .cI .dD .cM .none,
          .aSym "SP", .cI .dA .cM .none, .cI .dM .cD .none,
          .aSym "SP", .cI .dM .cMp1 .none] m).ram b = m.ram b) := by
  have d0 : ¬((0 : Nat) = sp) := by omega
  have tUsp : toUnsigned ((sp : Nat) : Int) = sp := toUnsigned_natCast _ (by omega)
  have tUp1 : toUnsigned (toSigned sp + 1) = sp + 1 :=
    toUnsigned_toSigned_add_one sp (by omega)
  constructor
  · simp only [execAsm, List.foldl_cons, List.foldl_nil, step, Comp.usesM,
      Dest.hasA, Dest.hasD, Dest.hasM, compInt, hSP, Nat.zero_mod,
      if_true, if_false, Bool.false_eq_true, wr, hsp, tUsp, tUp1, d0]
  · intro b hb0 hbsp
    simp only [execAsm, List.foldl_cons, List.foldl_nil, step, Comp.usesM,
      Dest.hasA, Dest.hasD, Dest.hasM, compInt, hSP, Nat.zero_mod,
      if_true, if_false, Bool.false_eq_true, wr, hsp, tUsp, tUp1, d0, hb0, hbsp]

/-- SP effect of the direct-address push block (`push temp`), any index. -/
theorem pushSPTemp_exec (env : String → Nat) (hSP : env "SP" = 0)
    (c : String) (j : Int) (m : Mach) (sp : Nat)
    (hsp : m.ram 0 = sp) (hsp1 : 1 ≤ sp) (hsp2 : sp < 65535) :
    ((execAsm env [.comment c, .aNum j, .cI .dD .cM .none,
        .aSym "SP", .cI .dA .cM .none, .cI .dM .cD .none,
        .aSym "SP", .cI .dM .cMp1 .none] m).ram 0 = sp + 1 ∧
     ∀ b, b ≠ 0 → b ≠ sp →
       (execAsm env [.comment c, .aNum j, .cI .dD .cM .none,
          .aSym "SP", .cI .dA .cM .none, .cI .dM .cD .none,
          .aSym "SP", .cI .dM .cMp1 .none] m).ram b = m.ram b) := by
  have d0 : ¬((0 : Nat) = sp) := by omega
  have tUsp : toUnsigned ((sp : Nat) : Int) = sp := toUnsigned_natCast _ (by omega)
  have tUp1 : toUnsigned (toSigned sp + 1) = sp + 1 :=
    toUnsigned_toSigned_add_one sp (by omega)
  constructor
  · simp only [execAsm, List.foldl_cons, List.foldl_nil, step, Comp.usesM,
      Dest.hasA, Dest.hasD, Dest.hasM, compInt, hSP, Nat.zero_mod,
      if_true, if_false, Bool.false_eq_true, wr, hsp, tUsp, tUp1, d0]
  · intro b hb0 hbsp
    simp only [execAsm, List.foldl_cons, List.foldl_nil, step, Comp.usesM,
      Dest.hasA, Dest.hasD, Dest.hasM, compInt, hSP, Nat.zero_mod,
      if_true, if_false, Bool.false_eq_true, wr, hsp, tUsp, tUp1, d0, hb0, hbsp]

/-- SP effect of the symbolic-cell push block (`push pointer/static`),
any symbol. -/
theorem pushSPSym_exec (env : String → Nat) (hSP : env "SP" = 0)
    (c sym : String) (m : Mach) (sp : Nat)
    (hsp : m.ram 0 = sp) (hsp1 : 1 ≤ sp) (hsp2 : sp < 65535) :
    ((execAsm env [.comment c, .aSym sym, .cI .dD .cM .none,
        .aSym "SP", .cI .dA .cM .none, .cI .dM .cD .none,
        .aSym "SP", .cI .dM .cMp1 .none] m).ram 0 = sp + 1 ∧
     ∀ b, b ≠ 0 → b ≠ sp →
       (execAsm env [.comment c, .aSym sym, .cI .dD .cM .none,
          .aSym "SP", .cI .dA .cM .none, .cI .dM .cD .none,
          .aSym "SP", .cI .dM .cMp1 .none] m).ram b = m.ram b) := by
  have d0 : ¬((0 : Nat) = sp) := by omega
  have tUsp : toUnsigned ((sp : Nat) : Int) = sp := toUnsigned_natCast _ (by omega)
  have tUp1 : toUnsigned (toSigned sp + 1) = sp + 1 :=
    toUnsigned_toSigned_add_one sp (by omega)
  constructor
  · simp only [execAsm, List.foldl_cons, List.foldl_nil, step, Comp.usesM,
      Dest.hasA, Dest.hasD, Dest.hasM, compInt, hSP, Nat.zero_mod,
      if_true, if_false, Bool.false_eq_true, wr, hsp, tUsp, tUp1, d0]
  · intro b hb0 hbsp
    simp only [execAsm, List.foldl_cons, List.foldl_nil, step, Comp.usesM,
      Dest.hasA, Dest.hasD, Dest.hasM, compInt, hSP, Nat.zero_mod,
      if_true, if_false, Bool.false_eq_true, wr, hsp, tUsp, tUp1, d0, hb0, hbsp]

/-- The address a pointer-based pop block stores to: 16-bit base plus
15-bit-truncated index, masked as the ALU computes it. -/
def baseTarget (b : Nat) (i : Int) : Nat :=
  toUnsigned (toSigned b + toSigned (i.toNat % 32768))

/-- SP effect of the pointer-based pop block, any index and base: SP drops
by one as long as the computed store address is not the SP cell. -/
theorem popSPBase_exec (env : String → Nat) (hSP : env "SP" = 0)
    (hR13 : env "R13" = 13) (c ptr : String) (i : Int) (m : Mach) (sp pa : Nat)
    (henv : env ptr = pa) (hpa : pa < 32768) (hwf : m.wf)
    (ht : baseTarget (m.ram pa) i ≠ 0)
    (hsp : m.ram 0 = sp) (hsp1 : 15 ≤ sp) (hsp2 : sp < 65536) :
    ((execAsm env [.comment c, .aSym ptr, .cI .dD .cM .none,
        .aNum i, .cI .dD .cDpA .none,
        .aSym "R13", .cI .dM .cD .none,
        .aSym "SP", .cI .dM .cMm1 .none, .cI .dA .cM .none, .cI .dD .cM .none,
        .aSym "R13", .cI .dA .cM .none, .cI .dM .cD .none] m).ram 0 = sp - 1 ∧
     ∀ b, b ≠ 0 → b ≠ 13 → b ≠ baseTarget (m.ram pa) i →
       (execAsm env [.comment c, .aSym ptr, .cI .dD .cM .none,
          .aNum i, .cI .dD .cDpA .none,
          .aSym "R13", .cI .dM .cD .none,
          .aSym "SP", .cI .dM .cMm1 .none, .cI .dA .cM .none, .cI .dD .cM .none,
          .aSym "R13", .cI .dA .cM .none, .cI .dM .cD .none] m).ram b = m.ram b) := by
  have m2 : pa % 32768 = pa := Nat.mod_eq_of_lt hpa
  have m3 : (13 : Nat) % 32768 = 13 := by norm_num
  have d2 : ¬(sp - 1 = 13) := by omega
  have d3 : ¬(sp - 1 = 0) := by omega
  have d5 : ¬((0 : Nat) = baseTarget (m.ram pa) i) := fun h => ht h.symm
  have d6 : ¬((13 : Nat) = 0) := by omega
  have d7 : ¬((0 : Nat) = 13) := by omega
  have tUB : toUnsigned ((m.ram pa : Nat) : Int) = m.ram pa :=
    toUnsigned_natCast _ (hwf pa)
  have tUt : toUnsigned ((baseTarget (m.ram pa) i : Nat) : Int) =
      baseTarget (m.ram pa) i := toUnsigned_natCast _ (toUnsigned_lt _)
  have hbt : toUnsigned (toSigned (m.ram pa) + toSigned (i.toNat % 32768)) =
      baseTarget (m.ram pa) i := rfl
  have tU4 : toUnsigned (toSigned sp - 1) = sp - 1 :=
    toUnsigned_toSigned_sub_one sp (by omega) hsp2
  have tU5 : toUnsigned ((sp - 1 : Nat) : Int) = sp - 1 :=
    toUnsigned_natCast _ (by omega)
  constructor
  · simp only [execAsm, List.foldl_cons, List.foldl_nil, step, Comp.usesM,
      Dest.hasA, Dest.hasD, Dest.hasM, compInt, hSP, hR13, henv, Nat.zero_mod,
      if_true, if_false, Bool.false_eq_true, wr, m2, m3, hsp, tUB,
      hbt, tUt, tU4, tU5, d2, d3, d5, d6, d7]
  · intro b hb0 hb13 hbt2
    simp only [execAsm, List.foldl_cons, List.foldl_nil, step, Comp.usesM,
      Dest.hasA, Dest.hasD, Dest.hasM, compInt, hSP, hR13, henv, Nat.zero_mod,
      if_true, if_false, Bool.false_eq_true, wr, m2, m3, hsp, tUB,
      hbt, tUt, tU4, tU5, d2, d3, d5, d6, d7, hb0, hb13, hbt2]

/-- SP effect of the direct-address pop block (`pop temp`), any index. -/
theorem popSPTemp_exec (env : String → Nat) (hSP : env "SP" = 0)
    (c : String) (j : Int) (m : Mach) (sp : Nat)
    (ht : j.toNat % 32768 ≠ 0)
    (hsp : m.ram 0 = sp) (hsp1 : 15 ≤ sp) (hsp2 : sp < 65536) :
    ((execAsm env [.comment c,
        .aSym "SP", .cI .dM .cMm1 .none, .cI .dA .cM .none, .cI .dD .cM .none,
        .aNum j, .cI .dM .cD .none] m).ram 0 = sp - 1 ∧
     ∀ b, b ≠ 0 → b ≠ j.toNat % 32768 →
       (execAsm env [.comment c,
          .aSym "SP", .cI .dM .cMm1 .none, .cI .dA .cM .none, .cI .dD .cM .none,
          .aNum j, .cI .dM .cD .none] m).ram b = m.ram b) := by
  have d1 : ¬(sp - 1 = 0) := by omega
  have d2 : ¬((0 : Nat) = j.toNat % 32768) := fun h => ht h.symm
  have tU4 : toUnsigned (toSigned sp - 1) = sp - 1 :=
    toUnsigned_toSigned_sub_one sp (by omega) hsp2
  have tU5 : toUnsigned ((sp - 1 : Nat) : Int) = sp - 1 :=
    toUnsigned_natCast _ (by omega)
  constructor
  · simp only [execAsm, List.foldl_cons, List.foldl_nil, step, Comp.usesM,
      Dest.hasA, Dest.hasD, Dest.hasM, compInt, hSP, Nat.zero_mod,
      if_true, if_false, Bool.false_eq_true, wr, hsp, tU4, tU5, d1, d2]
  · intro b hb0 hbt
    simp only [execAsm, List.foldl_cons, List.foldl_nil, step, Comp.usesM,
      Dest.hasA, Dest.hasD, Dest.hasM, compInt, hSP, Nat.zero_mod,
      if_true, if_false, Bool.false_eq_true, wr, hsp, tU4, tU5, d1, d2, hb0, hbt]

/-- SP effect of the symbolic-cell pop block (`pop pointer/static`). -/
theorem popSPSym_exec (env : String → Nat) (hSP : env "SP" = 0)
    (c sym : String) (m : Mach) (sp a : Nat)
    (henv : env sym = a) (ha : a < 32768) (ha0 : a ≠ 0)
    (hsp : m.ram 0 = sp) (hsp1 : 15 ≤ sp) (hsp2 : sp < 65536) :
    ((execAsm env [.comment c,
        .aSym "SP", .cI .dM .cMm1 .none, .cI .dA .cM .none, .cI .dD .cM .none,
        .aSym sym, .cI .dM .cD .none] m).ram 0 = sp - 1 ∧
     ∀ b, b ≠ 0 → b ≠ a →
       (execAsm env [.comment c,
          .aSym "SP", .cI .dM .cMm1 .none, .cI .dA .cM .none, .cI .dD .cM .none,
          .aSym sym, .cI .dM .cD .none] m).ram b = m.ram b) := by
  have m1 : a % 32768 = a := Nat.mod_eq_of_lt ha
  have d1 : ¬(sp - 1 = 0) := by omega
  have d2 : ¬((0 : Nat) = a) := fun h => ha0 h.symm
  have tU4 : toUnsigned (toSigned sp - 1) = sp - 1 :=
    toUnsigned_toSigned_sub_one sp (by omega) hsp2
  have tU5 : toUnsigned ((sp - 1 : Nat) : Int) = sp - 1 :=
    toUnsigned_natCast _ (by omega)
  constructor
  · simp only [execAsm, List.foldl_cons, List.foldl_nil, step, Comp.usesM,
      Dest.hasA, Dest.hasD, Dest.hasM, compInt, hSP, henv, Nat.zero_mod,
      if_true, if_false, Bool.false_eq_true, wr, m1, hsp, tU4, tU5, d1, d2]
  · intro b hb0 hbt
    simp only [execAsm, List.foldl_cons, List.foldl_nil, step, Comp.usesM,
      Dest.hasA, Dest.hasD, Dest.hasM, compInt, hSP, henv, Nat.zero_mod,
      if_true, if_false, Bool.false_eq_true, wr, m1, hsp, tU4, tU5, d1, d2, hb0, hbt]

/-- Segments accepted by `generate_push`. -/
def pushSegs : List String :=
  ["constant", "local", "argument", "this", "that", "temp", "pointer", "static"]

/-- Segments accepted by `generate_pop` (everything but `constant`). -/
def popSegs : List String :=
  ["local", "argument", "this", "that", "temp", "pointer", "static"]

/-- A push/pop command with a segment its generator accepts. -/
def validPP : Command → Prop
  | .push s _ => s ∈ pushSegs
  | .pop s _ => s ∈ popSegs
  | _ => False

/-- The assembly block generated for a push/pop command (empty for other
commands or invalid segments; the simulation theorems require `validPP`). -/
def pushPopLines (file : String) (c : Command) : List AsmLine :=
  match c with
  | .push s i => (generatePush file s i).getD []
  | .pop s i =>
    match generatePop file s i with
    | .ok (Option.some ls) => ls
    | _ => []
  | _ => []

/-- Simulate the assembly generated for a command sequence. -/
def runPP (env : String → Nat) (file : String) (m : Mach) : List Command → Mach
  | [] => m
  | c :: cs => runPP env file (execAsm env (pushPopLines file c) m) cs

/-- Is the command a push? -/
def isPush : Command → Bool
  | .push _ _ => true
  | _ => false

/-- Is the command a pop? -/
def isPop : Command → Bool
  | .pop _ _ => true
  | _ => false

/-- Number of push commands. -/
def pushCount (cmds : List Command) : Nat := cmds.countP isPush

/-- Number of pop commands. -/
def popCount (cmds : List Command) : Nat := cmds.countP isPop

/-- The RAM address a pop command's generated block stores the popped word
to, evaluated in the machine state at which the block runs. -/
def popTarget (env : String → Nat) (file : String) (m : Mach)
    (s : String) (i : Int) : Nat :=
  if s = "local" then baseTarget (m.ram 1) i
  else if s = "argument" then baseTarget (m.ram 2) i
  else if s = "this" then baseTarget (m.ram 3) i
  else if s = "that" then baseTarget (m.ram 4) i
  else if s = "temp" then (5 + i).toNat % 32768
  else if s = "pointer" then (if i = 0 then env "THIS" else env "THAT")
  else env (file ++ "." ++ intStr i)

/-- One push block raises SP by exactly one word, one pop block lowers it by
exactly one word — the latter provided its store address is not the SP cell. -/
theorem pushPop_SP_step (env : String → Nat) (file : String) (c : Command) (m : Mach)
    (hSP : env "SP" = 0) (hLCL : env "LCL" = 1) (hARG : env "ARG" = 2)
    (hTHIS : env "THIS" = 3) (hTHAT : env "THAT" = 4) (hR13 : env "R13" = 13)
    (henvlt : ∀ s, env s < 32768)
    (hwf : m.wf) (hvalid : validPP c)
    (hlo : 15 ≤ m.ram 0) (hhi : m.ram 0 < 65535)
    (htgt : ∀ s i, c = .pop s i → popTarget env file m s i ≠ 0) :
    (execAsm env (pushPopLines file c) m).ram 0 =
      (match c with
       | .push _ _ => m.ram 0 + 1
       | .pop _ _ => m.ram 0 - 1
       | _ => m.ram 0) := by
  cases c with
  | push s i =>
    simp only [validPP, pushSegs] at hvalid
    simp only [List.mem_cons, List.mem_singleton, List.not_mem_nil, or_false] at hvalid
    rcases hvalid with rfl | rfl | rfl | rfl | rfl | rfl | rfl | rfl
    · simpa [pushPopLines, generatePush] using
        (pushSPConstant_exec env hSP _ i m (m.ram 0) rfl (by omega) (by omega)).1
    · simpa [pushPopLines, generatePush] using
        (pushSPBase_exec env hSP _ "LCL" i m (m.ram 0) rfl (by omega) (by omega)).1
    · simpa [pushPopLines, generatePush] using
        (pushSPBase_exec env hSP _ "ARG" i m (m.ram 0) rfl (by omega) (by omega)).1
    · simpa [pushPopLines, generatePush] using
        (pushSPBase_exec env hSP _ "THIS" i m (m.ram 0) rfl (by omega) (by omega)).1
    · simpa [pushPopLines, generatePush] using
        (pushSPBase_exec env hSP _ "THAT" i m (m.ram 0) rfl (by omega) (by omega)).1
    · simpa [pushPopLines, generatePush] using
        (pushSPTemp_exec env hSP _ (5 + i) m (m.ram 0) rfl (by omega) (by omega)).1
    · simpa [pushPopLines, generatePush] using
        (pushSPSym_exec env hSP _ (if i = 0 then "THIS" else "THAT") m (m.ram 0)
          rfl (by omega) (by omega)).1
    · simpa [pushPopLines, generatePush] using
        (pushSPSym_exec env hSP _ (file ++ "." ++ intStr i) m (m.ram 0)
          rfl (by omega) (by omega)).1
  | pop s i =>
    have htgt' := htgt s i rfl
    simp only [validPP, popSegs] at hvalid
    simp only [List.mem_cons, List.mem_singleton, List.not_mem_nil, or_false] at hvalid
    rcases hvalid with rfl | rfl | rfl | rfl | rfl | rfl | rfl
    · simp only [popTarget, if_true, if_false] at htgt'
      simpa [pushPopLines, generatePop] using
        (popSPBase_exec env hSP hR13 _ "LCL" i m (m.ram 0) 1 hLCL (by omega) hwf
          htgt' rfl (by omega) (by omega)).1
    · simp only [popTarget, if_true, if_false] at htgt'
      simpa [pushPopLines, generatePop] using
        (popSPBase_exec env hSP hR13 _ "ARG" i m (m.ram 0) 2 hARG (by omega) hwf
          htgt' rfl (by omega) (by omega)).1
    · simp only [popTarget, if_true, if_false] at htgt'
      simpa [pushPopLines, generatePop] using
        (popSPBase_exec env hSP hR13 _ "THIS" i m (m.ram 0) 3 hTHIS (by omega) hwf
          htgt' rfl (by omega) (by omega)).1
    · simp only [popTarget, if_true, if_false] at htgt'
      simpa [pushPopLines, generatePop] using
        (popSPBase_exec env hSP hR13 _ "THAT" i m (m.ram 0) 4 hTHAT (by omega) hwf
          htgt' rfl (by omega) (by omega)).1
    · simp only [popTarget, if_true, if_false] at htgt'
      simpa [pushPopLines, generatePop] using
        (popSPTemp_exec env hSP _ (5 + i) m (m.ram 0) htgt' rfl (by omega) (by omega)).1
    · by_cases hi : i = 0
      · subst hi
        simpa [pushPopLines, generatePop] using
          (popSPSym_exec env hSP _ "THIS" m (m.ram 0) 3 hTHIS (by omega) (by omega)
            rfl (by omega) (by omega)).1
      · simpa [pushPopLines, generatePop, hi] using
          (popSPSym_exec env hSP _ "THAT" m (m.ram 0) 4 hTHAT (by omega) (by omega)
            rfl (by omega) (by omega)).1
    · simp only [popTarget, if_true, if_false] at htgt'
      simpa [pushPopLines, generatePop] using
        (popSPSym_exec env hSP _ (file ++ "." ++ intStr i) m (m.ram 0)
          (env (file ++ "." ++ intStr i)) rfl (henvlt _) htgt'
          rfl (by omega) (by omega)).1
  | arithmetic op => exact absurd hvalid (by simp [validPP])
  | label l => exact absurd hvalid (by simp [validPP])
  | goto l => exact absurd hvalid (by simp [validPP])
  | ifGoto l => exact absurd hvalid (by simp [validPP])
  | function n k => exact absurd hvalid (by simp [validPP])
  | call n a => exact absurd hvalid (by simp [validPP])
  | ret => exact absurd hvalid (by simp [validPP])

/-- Stack-pointer bookkeeping over a whole push/pop command sequence:
starting from `SP = 256 + surplus`, a sequence whose prefixes never pop more
than `surplus` plus what they pushed, and whose pop blocks never store to
the SP cell, leaves `SP = 256 + surplus + pushes - pops`. -/
theorem runPP_SP (env : String → Nat) (file : String)
    (hSP : env "SP" = 0) (hLCL : env "LCL" = 1) (hARG : env "ARG" = 2)
    (hTHIS : env "THIS" = 3) (hTHAT : env "THAT" = 4) (hR13 : env "R13" = 13)
    (henvlt : ∀ s, env s < 32768) :
    ∀ (cmds : List Command) (m : Mach) (surplus : Nat),
    m.wf → (∀ c ∈ cmds, validPP c) →
    m.ram 0 = 256 + surplus →
    256 + surplus + pushCount cmds < 65535 →
    (∀ p q, cmds = p ++ q → popCount p ≤ surplus + pushCount p) →
    (∀ p s i q, cmds = p ++ .pop s i :: q →
      popTarget env file (runPP env file m p) s i ≠ 0) →
    (runPP env file m cmds).ram 0 = 256 + surplus + pushCount cmds - popCount cmds := by
  intro cmds
  induction cmds with
  | nil =>
    intro m surplus _ _ hsp _ _ _
    simpa [runPP, pushCount, popCount] using hsp
  | cons c rest ih =>
    intro m surplus hwf hvalid hsp hbound hpre htgt
    have hvc : validPP c := hvalid c (List.mem_cons_self c rest)
    have hstep := pushPop_SP_step env file c m hSP hLCL hARG hTHIS hTHAT hR13
      henvlt hwf hvc (by omega) (by omega)
      (fun s i hc => by
        have := htgt [] s i rest (by simp [hc])
        simpa [runPP] using this)
    have hwf' : (execAsm env (pushPopLines file c) m).wf :=
      execAsm_wf env _ m hwf
    cases c with
    | push s i =>
      dsimp only at hstep
      have hc1 : pushCount (Command.push s i :: rest) = pushCount rest + 1 := by
        simp [pushCount, List.countP_cons, isPush]
      rw [hc1] at hbound
      have hc2 : popCount (Command.push s i :: rest) = popCount rest := by
        simp [popCount, List.countP_cons, isPop]
      have hrun : runPP env file m (Command.push s i :: rest) =
          runPP env file (execAsm env (pushPopLines file (Command.push s i)) m) rest := rfl
      rw [hrun, ih (execAsm env (pushPopLines file (Command.push s i)) m)
        (surplus + 1) hwf'
        (fun x hx => hvalid x (List.mem_cons_of_mem _ hx))
        (by omega) (by omega)
        (fun p q hpq => by
          have := hpre (Command.push s i :: p) q (by simp [hpq])
          simp only [pushCount, popCount, List.countP_cons, isPush, isPop,
            Bool.false_eq_true, if_true, if_false] at this ⊢
          omega)
        (fun p s' i' q hpq => by
          have := htgt (Command.push s i :: p) s' i' q (by simp [hpq])
          simpa [runPP] using this)]
      omega
    | pop s i =>
      dsimp only at hstep
      have hple := hpre [Command.pop s i] rest rfl
      simp only [pushCount, popCount, List.countP_cons, isPush, isPop,
        Bool.false_eq_true, if_true, if_false, List.countP_nil] at hple
      have hsur : 1 ≤ surplus := by omega
      have hc1 : pushCount (Command.pop s i :: rest) = pushCount rest := by
        simp [pushCount, List.countP_cons, isPush]
      have hc2 : popCount (Command.pop s i :: rest) = popCount rest + 1 := by
        simp [popCount, List.countP_cons, isPop]
      have hrun : runPP env file m (Command.pop s i :: rest) =
          runPP env file (execAsm env (pushPopLines file (Command.pop s i)) m) rest := rfl
      rw [hrun, ih (execAsm env (pushPopLines file (Command.pop s i)) m)
        (surplus - 1) hwf'
        (fun x hx => hvalid x (List.mem_cons_of_mem _ hx))
        (by omega) (by omega)
        (fun p q hpq => by
          have := hpre (Command.pop s i :: p) q (by simp [hpq])
          simp only [pushCount, popCount, List.countP_cons, isPush, isPop,
            Bool.false_eq_true, if_true, if_false] at this ⊢
          omega)
        (fun p s' i' q hpq => by
          have := htgt (Command.pop s i :: p) s' i' q (by simp [hpq])
          simpa [runPP] using this)]
      omega
    | arithmetic op => exact absurd hvc (by simp [validPP])
    | label l => exact absurd hvc (by simp [validPP])
    | goto l => exact absurd hvc (by simp [validPP])
    | ifGoto l => exact absurd hvc (by simp [validPP])
    | function n k => exact absurd hvc (by simp [validPP])
    | call n a => exact absurd hvc (by simp [validPP])
    | ret => exact absurd hvc (by simp [validPP])

/-- Effect of the binary arithmetic block (`add/sub/and/or`): pop `y`
(second-pushed), pop `x` (first-pushed), push the ALU result of the chosen
memory-reading computation applied to `D = y` and `M = x`. -/
theorem arithBinBlock_exec (env : String → Nat) (hSP : env "SP" = 0)
    (c : String) (cmp : Comp) (hM : cmp.usesM = true)
    (m : Mach) (sp : Nat)
    (hsp : m.ram 0 = sp) (h15 : 15 ≤ sp) (hlt : sp < 65536)
    (hy : m.ram (sp - 1) < 65536) :
    ((execAsm env [.comment c,
        .aSym "SP", .cI .dM .cMm1 .none, .cI .dA .cM .none, .cI .dD .cM .none,
        .aSym "SP", .cI .dM .cMm1 .none, .cI .dA .cM .none,
        .cI .dM cmp .none,
        .aSym "SP", .cI .dM .cMp1 .none] m).ram 0 = sp - 1 ∧
     (execAsm env [.comment c,
        .aSym "SP", .cI .dM .cMm1 .none, .cI .dA .cM .none, .cI .dD .cM .none,
        .aSym "SP", .cI .dM .cMm1 .none, .cI .dA .cM .none,
        .cI .dM cmp .none,
        .aSym "SP", .cI .dM .cMp1 .none] m).ram (sp - 2) =
       toUnsigned (compInt cmp (m.ram (sp - 1)) (m.ram (sp - 2))) ∧
     ∀ b, b ≠ 0 → b ≠ sp - 2 →
       (execAsm env [.comment c,
          .aSym "SP", .cI .dM .cMm1 .none, .cI .dA .cM .none, .cI .dD .cM .none,
          .aSym "SP", .cI .dM .cMm1 .none, .cI .dA .cM .none,
          .cI .dM cmp .none,
          .aSym "SP", .cI .dM .cMp1 .none] m).ram b = m.ram b) := by
  have d1 : ¬(sp - 1 = 0) := by omega
  have d2 : ¬(sp - 2 = 0) := by omega
  have d3 : ¬((0 : Nat) = sp - 2) := by omega
  have tU1 : toUnsigned (toSigned sp - 1) = sp - 1 :=
    toUnsigned_toSigned_sub_one sp (by omega) hlt
  have tU2 : toUnsigned ((sp - 1 : Nat) : Int) = sp - 1 :=
    toUnsigned_natCast _ (by omega)
  have tU3 : toUnsigned (toSigned (sp - 1) - 1) = sp - 2 := by
    have := toUnsigned_toSigned_sub_one (sp - 1) (by omega) (by omega)
    rw [this]
    omega
  have tU4 : toUnsigned ((sp - 2 : Nat) : Int) = sp - 2 :=
    toUnsigned_natCast _ (by omega)
  have tU5 : toUnsigned ((m.ram (sp - 1) : Nat) : Int) = m.ram (sp - 1) :=
    toUnsigned_natCast _ hy
  have tU6 : toUnsigned (toSigned (sp - 2) + 1) = sp - 1 := by
    have := toUnsigned_toSigned_add_one (sp - 2) (by omega)
    rw [this]
    omega
  cases cmp <;>
    first
      | (refine ⟨?_, ?_, fun b hb0 hbt => ?_⟩ <;>
          simp only [execAsm, List.foldl_cons, List.foldl_nil, step, Comp.usesM,
            Dest.hasA, Dest.hasD, Dest.hasM, compInt, hSP, Nat.zero_mod,
            if_true, if_false, Bool.false_eq_true, wr, hsp,
            tU1, tU2, tU3, tU4, tU5, tU6, d1, d2, d3] <;>
          simp_all)
      | exact absurd hM (by simp [Comp.usesM])

/-- Effect of the return-address push at the head of `generate_call`:
`@retLabel / D=A /` push suffix pushes the label's resolved address. -/
theorem pushAddrBlock_exec (env : String → Nat) (hSP : env "SP" = 0)
    (c sym : String) (m : Mach) (sp ra : Nat)
    (henv : env sym = ra) (hra : ra < 32768)
    (hsp : m.ram 0 = sp) (hsp1 : 1 ≤ sp) (hsp2 : sp < 65535) :
    ((execAsm env [.comment c, .aSym sym, .cI .dD .cA .none,
        .aSym "SP", .cI .dA .cM .none, .cI .dM .cD .none,
        .aSym "SP", .cI .dM .cMp1 .none] m).ram 0 = sp + 1 ∧
     (execAsm env [.comment c, .aSym sym, .cI .dD .cA .none,
        .aSym "SP", .cI .dA .cM .none, .cI .dM .cD .none,
        .aSym "SP", .cI .dM .cMp1 .none] m).ram sp = ra ∧
     ∀ b, b ≠ 0 → b ≠ sp →
       (execAsm env [.comment c, .aSym sym, .cI .dD .cA .none,
          .aSym "SP", .cI .dA .cM .none, .cI .dM .cD .none,
          .aSym "SP", .cI .dM .cMp1 .none] m).ram b = m.ram b) := by
  have m1 : ra % 32768 = ra := Nat.mod_eq_of_lt hra
  have d0 : ¬((0 : Nat) = sp) := by omega
  have d0' : ¬(sp = 0) := by omega
  have tUra : toUnsigned ((ra : Nat) : Int) = ra := toUnsigned_natCast _ (by omega)
  have tUsp : toUnsigned ((sp : Nat) : Int) = sp := toUnsigned_natCast _ (by omega)
  have tUp1 : toUnsigned (toSigned sp + 1) = sp + 1 :=
    toUnsigned_toSigned_add_one sp (by omega)
  refine ⟨?_, ?_, ?_⟩
  · simp only [execAsm, List.foldl_cons, List.foldl_nil, step, Comp.usesM,
      Dest.hasA, Dest.hasD, Dest.hasM, compInt, hSP, henv, Nat.zero_mod,
      if_true, if_false, Bool.false_eq_true, wr, m1, hsp, tUra, tUsp, tUp1, d0, d0']
  · simp only [execAsm, List.foldl_cons, List.foldl_nil, step, Comp.usesM,
      Dest.hasA, Dest.hasD, Dest.hasM, compInt, hSP, henv, Nat.zero_mod,
      if_true, if_false, Bool.false_eq_true, wr, m1, hsp, tUra, tUsp, tUp1, d0, d0']
  · intro b hb0 hbsp
    simp only [execAsm, List.foldl_cons, List.foldl_nil, step, Comp.usesM,
      Dest.hasA, Dest.hasD, Dest.hasM, compInt, hSP, henv, Nat.zero_mod,
      if_true, if_false, Bool.false_eq_true, wr, m1, hsp, tUra, tUsp, tUp1, d0, d0',
      hb0, hbsp]

/-- Effect of the tail of `generate_call`: `ARG = SP - (nArgs+5)`,
`LCL = SP`, then the jump to the callee and the return-label declaration
(which move no data; the final `A` holds the callee's address). -/
theorem callTail_exec (env : String → Nat) (hSP : env "SP" = 0)
    (hLCL : env "LCL" = 1) (hARG : env "ARG" = 2)
    (name : String) (n : Int) (retLabel : String) (m : Mach) (sp : Nat)
    (_hn0 : 0 ≤ n) (_hn1 : n + 5 < 32768)
    (hsp : m.ram 0 = sp) (hsp1 : 15 ≤ sp) (hsp2 : sp < 32768)
    (hns : (n + 5).toNat ≤ sp) :
    ((execAsm env [.aSym "SP", .cI .dD .cM .none,
        .aNum (n + 5), .cI .dD .cDmA .none,
        .aSym "ARG", .cI .dM .cD .none,
        .aSym "SP", .cI .dD .cM .none,
        .aSym "LCL", .cI .dM .cD .none,
        .aSym name, .cI .none .c0 .jmp,
        .labelDecl retLabel] m).ram 2 = sp - (n + 5).toNat ∧
     (execAsm env [.aSym "SP", .cI .dD .cM .none,
        .aNum (n + 5), .cI .dD .cDmA .none,
        .aSym "ARG", .cI .dM .cD .none,
        .aSym "SP", .cI .dD .cM .none,
        .aSym "LCL", .cI .dM .cD .none,
        .aSym name, .cI .none .c0 .jmp,
        .labelDecl retLabel] m).ram 1 = sp ∧
     ∀ b, b ≠ 1 → b ≠ 2 →
       (execAsm env [.aSym "SP", .cI .dD .cM .none,
          .aNum (n + 5), .cI .dD .cDmA .none,
          .aSym "ARG", .cI .dM .cD .none,
          .aSym "SP", .cI .dD .cM .none,
          .aSym "LCL", .cI .dM .cD .none,
          .aSym name, .cI .none .c0 .jmp,
          .labelDecl retLabel] m).ram b = m.ram b) := by
  have m1 : (n + 5).toNat % 32768 = (n + 5).toNat := Nat.mod_eq_of_lt (by omega)
  have d1 : ¬((0 : Nat) = 2) := by omega
  have d2 : ¬((1 : Nat) = 2) := by omega
  have d3 : ¬((2 : Nat) = 1) := by omega
  have m2 : (1 : Nat) % 32768 = 1 := by norm_num
  have m3 : (2 : Nat) % 32768 = 2 := by norm_num
  have tUsp : toUnsigned ((sp : Nat) : Int) = sp := toUnsigned_natCast _ (by omega)
  have tUsub : toUnsigned (toSigned sp - toSigned ((n + 5).toNat)) =
      sp - (n + 5).toNat := toUnsigned_toSigned_sub sp ((n + 5).toNat) (by omega) hns
  have tUsub2 : toUnsigned ((sp - (n + 5).toNat : Nat) : Int) = sp - (n + 5).toNat :=
    toUnsigned_natCast _ (by omega)
  refine ⟨?_, ?_, ?_⟩
  · simp only [execAsm, List.foldl_cons, List.foldl_nil, step, Comp.usesM,
      Dest.hasA, Dest.hasD, Dest.hasM, compInt, hSP, hLCL, hARG, Nat.zero_mod,
      if_true, if_false, Bool.false_eq_true, wr, m1, m2, m3, hsp,
      tUsp, tUsub, tUsub2, d1, d2, d3]
  · simp only [execAsm, List.foldl_cons, List.foldl_nil, step, Comp.usesM,
      Dest.hasA, Dest.hasD, Dest.hasM, compInt, hSP, hLCL, hARG, Nat.zero_mod,
      if_true, if_false, Bool.false_eq_true, wr, m1, m2, m3, hsp,
      tUsp, tUsub, tUsub2, d1, d2, d3]
  · intro b hb1 hb2
    simp only [execAsm, List.foldl_cons, List.foldl_nil, step, Comp.usesM,
      Dest.hasA, Dest.hasD, Dest.hasM, compInt, hSP, hLCL, hARG, Nat.zero_mod,
      if_true, if_false, Bool.false_eq_true, wr, m1, m2, m3, hsp,
      tUsp, tUsub, tUsub2, d1, d2, d3, hb1, hb2]

/-- Effect of the local-initialisation loop of `generate_function`: `k`
zero-pushes raise SP by `k` and zero the `k` cells above the old SP. -/
theorem pushZeroBlocks_exec (env : String → Nat) (hSP : env "SP" = 0) :
    ∀ (k : Nat) (m : Mach) (sp : Nat), m.ram 0 = sp → 1 ≤ sp → sp + k < 65536 →
    ((execAsm env (pushZeroBlocks k) m).ram 0 = sp + k ∧
     (∀ j, j < k → (execAsm env (pushZeroBlocks k) m).ram (sp + j) = 0) ∧
     ∀ b, b ≠ 0 → ¬(sp ≤ b ∧ b < sp + k) →
       (execAsm env (pushZeroBlocks k) m).ram b = m.ram b) := by
  intro k
  induction k with
  | zero =>
    intro m sp hsp _ _
    exact ⟨hsp, fun j hj => absurd hj (by omega), fun b _ _ => rfl⟩
  | succ k ih =>
    intro m sp hsp h1 h2
    have hsplit : pushZeroBlocks (k + 1) = pushZeroLines ++ pushZeroBlocks k := rfl
    rw [hsplit, execAsm_append]
    obtain ⟨z1, z2, z3⟩ := pushZeroLines_exec env hSP m sp hsp h1 (by omega)
    obtain ⟨i1, i2, i3⟩ := ih (execAsm env pushZeroLines m) (sp + 1) z1 (by omega)
      (by omega)
    refine ⟨by rw [i1]; omega, ?_, ?_⟩
    · intro j hj
      rcases Nat.eq_zero_or_pos j with rfl | hjpos
      · rw [Nat.add_zero, i3 sp (by omega) (by omega), z2]
      · have : sp + j = (sp + 1) + (j - 1) := by omega
        rw [this]
        have := i2 (j - 1) (by omega)
        simpa using this
    · intro b hb0 hbr
      rw [i3 b hb0 (by omega), z3 b hb0 (by omega)]
/-- Effect of the full `generate_call` block: pushes the return address and
the four saved pointers (in the order LCL, ARG, THIS, THAT), sets
`ARG = SP - nArgs - 5` and `LCL = SP`, and touches nothing else.  `sp` is
the stack pointer before the call, i.e. after the caller pushed the
arguments. -/
theorem callBlock_exec (env : String → Nat)
    (hSP : env "SP" = 0) (hLCL : env "LCL" = 1) (hARG : env "ARG" = 2)
    (hTHIS : env "THIS" = 3) (hTHAT : env "THAT" = 4)
    (st : GenState) (name : String) (n : Int) (m : Mach) (sp ra : Nat)
    (henvRet : env (name ++ "$ret." ++ natStr st.returnCounter) = ra)
    (hra : ra < 32768)
    (hwf1 : m.ram 1 < 65536) (hwf2 : m.ram 2 < 65536)
    (hwf3 : m.ram 3 < 65536) (hwf4 : m.ram 4 < 65536)
    (hn0 : 0 ≤ n) (hn1 : n + 5 < 32768)
    (hsp : m.ram 0 = sp) (hsp1 : 256 ≤ sp) (hsp2 : sp + 5 < 32768)
    (hns : (n + 5).toNat ≤ sp + 5) :
    ((execAsm env (generateCall st name n).1 m).ram 0 = sp + 5 ∧
     (execAsm env (generateCall st name n).1 m).ram sp = ra ∧
     (execAsm env (generateCall st name n).1 m).ram (sp + 1) = m.ram 1 ∧
     (execAsm env (generateCall st name n).1 m).ram (sp + 2) = m.ram 2 ∧
     (execAsm env (generateCall st name n).1 m).ram (sp + 3) = m.ram 3 ∧
     (execAsm env (generateCall st name n).1 m).ram (sp + 4) = m.ram 4 ∧
     (execAsm env (generateCall st name n).1 m).ram 1 = sp + 5 ∧
     (execAsm env (generateCall st name n).1 m).ram 2 = sp + 5 - (n + 5).toNat ∧
     ∀ b, b ≠ 0 → b ≠ 1 → b ≠ 2 → ¬(sp ≤ b ∧ b < sp + 5) →
       (execAsm env (generateCall st name n).1 m).ram b = m.ram b) := by
  have hsplit : (generateCall st name n).1 =
      [.comment ("call " ++ name ++ " " ++ intStr n),
       .aSym (name ++ "$ret." ++ natStr st.returnCounter), .cI .dD .cA .none,
       .aSym "SP", .cI .dA .cM .none, .cI .dM .cD .none,
       .aSym "SP", .cI .dM .cMp1 .none] ++
      (pushSegLines "LCL" ++ (pushSegLines "ARG" ++ (pushSegLines "THIS" ++
        (pushSegLines "THAT" ++
         [.aSym "SP", .cI .dD .cM .none,
          .aNum (n + 5), .cI .dD .cDmA .none,
          .aSym "ARG", .cI .dM .cD .none,
          .aSym "SP", .cI .dD .cM .none,
          .aSym "LCL", .cI .dM .cD .none,
          .aSym name, .cI .none .c0 .jmp,
          .labelDecl (name ++ "$ret." ++ natStr st.returnCounter)])))) := by
    simp [generateCall, pushSegLines]
  rw [hsplit, execAsm_append, execAsm_append, execAsm_append, execAsm_append,
    execAsm_append]
  obtain ⟨a1, a2, a3⟩ := pushAddrBlock_exec env hSP
    ("call " ++ name ++ " " ++ intStr n)
    (name ++ "$ret." ++ natStr st.returnCounter) m sp ra henvRet hra hsp
    (by omega) (by omega)
  set mA := execAsm env [.comment ("call " ++ name ++ " " ++ intStr n),
    .aSym (name ++ "$ret." ++ natStr st.returnCounter), .cI .dD .cA .none,
    .aSym "SP", .cI .dA .cM .none, .cI .dM .cD .none,
    .aSym "SP", .cI .dM .cMp1 .none] m with hmA
  have bridge : ∀ (s : String) (mm : Mach),
      execAsm env (pushSegLines s) mm =
      execAsm env [.comment "", .aSym s, .cI .dD .cM .none,
        .aSym "SP", .cI .dA .cM .none, .cI .dM .cD .none,
        .aSym "SP", .cI .dM .cMp1 .none] mm := fun s mm => rfl
  rw [bridge "LCL" mA]
  obtain ⟨b1, b2, b3⟩ := pushSymBlock_exec env hSP "" "LCL" mA (sp + 1) 1 hLCL
    (by omega) (by rw [a3 1 (by omega) (by omega)]; exact hwf1) a1 (by omega) (by omega)
  set mB := execAsm env [.comment "", .aSym "LCL", .cI .dD .cM .none,
    .aSym "SP", .cI .dA .cM .none, .cI .dM .cD .none,
    .aSym "SP", .cI .dM .cMp1 .none] mA with hmB
  rw [bridge "ARG" mB]
  obtain ⟨c1, c2, c3⟩ := pushSymBlock_exec env hSP "" "ARG" mB (sp + 2) 2 hARG
    (by omega)
    (by rw [b3 2 (by omega) (by omega), a3 2 (by omega) (by omega)]; exact hwf2)
    b1 (by omega) (by omega)
  set mC := execAsm env [.comment "", .aSym "ARG", .cI .dD .cM .none,
    .aSym "SP", .cI .dA .cM .none, .cI .dM .cD .none,
    .aSym "SP", .cI .dM .cMp1 .none] mB with hmC
  rw [bridge "THIS" mC]
  obtain ⟨d1, d2, d3⟩ := pushSymBlock_exec env hSP "" "THIS" mC (sp + 3) 3 hTHIS
    (by omega)
    (by rw [c3 3 (by omega) (by omega), b3 3 (by omega) (by omega),
      a3 3 (by omega) (by omega)]; exact hwf3)
    c1 (by omega) (by omega)
  set mD := execAsm env [.comment "", .aSym "THIS", .cI .dD .cM .none,
    .aSym "SP", .cI .dA .cM .none, .cI .dM .cD .none,
    .aSym "SP", .cI .dM .cMp1 .none] mC with hmD
  rw [bridge "THAT" mD]
  obtain ⟨e1, e2, e3⟩ := pushSymBlock_exec env hSP "" "THAT" mD (sp + 4) 4 hTHAT
    (by omega)
    (by rw [d3 4 (by omega) (by omega), c3 4 (by omega) (by omega),
      b3 4 (by omega) (by omega), a3 4 (by omega) (by omega)]; exact hwf4)
    d1 (by omega) (by omega)
  set mE := execAsm env [.comment "", .aSym "THAT", .cI .dD .cM .none,
    .aSym "SP", .cI .dA .cM .none, .cI .dM .cD .none,
    .aSym "SP", .cI .dM .cMp1 .none] mD with hmE
  obtain ⟨f1, f2, f3⟩ := callTail_exec env hSP hLCL hARG name n
    (name ++ "$ret." ++ natStr st.returnCounter) mE (sp + 5) hn0 hn1 e1
    (by omega) (by omega) hns
  refine ⟨?_, ?_, ?_, ?_, ?_, ?_, ?_, ?_, ?_⟩
  · rw [f3 0 (by omega) (by omega)]
    exact e1
  · rw [f3 sp (by omega) (by omega), e3 sp (by omega) (by omega),
      d3 sp (by omega) (by omega), c3 sp (by omega) (by omega),
      b3 sp (by omega) (by omega)]
    exact a2
  · rw [f3 (sp + 1) (by omega) (by omega), e3 (sp + 1) (by omega) (by omega),
      d3 (sp + 1) (by omega) (by omega), c3 (sp + 1) (by omega) (by omega), b2,
      a3 1 (by omega) (by omega)]
  · rw [f3 (sp + 2) (by omega) (by omega), e3 (sp + 2) (by omega) (by omega),
      d3 (sp + 2) (by omega) (by omega), c2, b3 2 (by omega) (by omega),
      a3 2 (by omega) (by omega)]
  · rw [f3 (sp + 3) (by omega) (by omega), e3 (sp + 3) (by omega) (by omega), d2,
      c3 3 (by omega) (by omega), b3 3 (by omega) (by omega),
      a3 3 (by omega) (by omega)]
  · rw [f3 (sp + 4) (by omega) (by omega), e2, d3 4 (by omega) (by omega),
      c3 4 (by omega) (by omega), b3 4 (by omega) (by omega),
      a3 4 (by omega) (by omega)]
  · exact f2
  · rw [f1]
  · intro b hb0 hb1 hb2 hbr
    rw [f3 b hb1 hb2, e3 b hb0 (by omega), d3 b hb0 (by omega),
      c3 b hb0 (by omega), b3 b hb0 (by omega), a3 b hb0 (by omega)]

/-- Effect of one restore block of `generate_return`:
`RAM[seg] := *(FRAME - off)` with FRAME frozen in R13. -/
theorem restoreLine_exec (env : String → Nat) (hR13 : env "R13" = 13)
    (off : Nat) (seg : String) (a : Nat)
    (henv : env seg = a) (ha : a < 32768)
    (m : Mach) (L : Nat) (hL13 : m.ram 13 = L) (hL : L < 32768)
    (hoff : off ≤ L) (hoffb : off < 32768)
    (hv : m.ram (L - off) < 65536) :
    ((execAsm env (restoreLines (off, seg)) m).ram a = m.ram (L - off) ∧
     ∀ b, b ≠ a → (execAsm env (restoreLines (off, seg)) m).ram b = m.ram b) := by
  have m13 : (13 : Nat) % 32768 = 13 := by norm_num
  have ma : a % 32768 = a := Nat.mod_eq_of_lt ha
  have moff : ((off : Int).toNat) % 32768 = off := by
    rw [Int.toNat_natCast]
    exact Nat.mod_eq_of_lt hoffb
  have tUL : toUnsigned ((L : Nat) : Int) = L := toUnsigned_natCast _ (by omega)
  have tUsub : toUnsigned (toSigned L - toSigned off) = L - off :=
    toUnsigned_toSigned_sub L off hL hoff
  have tUv : toUnsigned ((m.ram (L - off) : Nat) : Int) = m.ram (L - off) :=
    toUnsigned_natCast _ hv
  refine ⟨?_, ?_⟩
  · simp only [restoreLines, execAsm, List.foldl_cons, List.foldl_nil, step,
      Comp.usesM, Dest.hasA, Dest.hasD, Dest.hasM, compInt, hR13, henv,
      Nat.zero_mod, if_true, if_false, Bool.false_eq_true, wr,
      m13, ma, moff, hL13, tUL, tUsub, tUv]
  · intro b hb
    simp only [restoreLines, execAsm, List.foldl_cons, List.foldl_nil, step,
      Comp.usesM, Dest.hasA, Dest.hasD, Dest.hasM, compInt, hR13, henv,
      Nat.zero_mod, if_true, if_false, Bool.false_eq_true, wr,
      m13, ma, moff, hL13, tUL, tUsub, tUv, hb]

/-- Effect of the head of `generate_return` (everything before the four
restores): freeze FRAME in R13, fetch the return address into R14, pop the
return value into `*ARG`, set `SP = ARG + 1`. -/
theorem returnHead_exec (env : String → Nat)
    (hSP : env "SP" = 0) (hLCL : env "LCL" = 1) (hARG : env "ARG" = 2)
    (hR13 : env "R13" = 13) (hR14 : env "R14" = 14)
    (m : Mach) (L S a : Nat)
    (hL : m.ram 1 = L) (hLlo : 256 ≤ L) (hLhi : L < 32768)
    (hS : m.ram 0 = S) (hSlo : 256 ≤ S) (hShi : S < 32768)
    (ha : m.ram 2 = a) (halo : 15 ≤ a) (hahi : a < 32767)
    (hv : m.ram (S - 1) < 65536) (hret : m.ram (L - 5) < 65536) :
    ((execAsm env [.comment "return",
        .aSym "LCL", .cI .dD .cM .none, .aSym "R13", .cI .dM .cD .none,
        .aNum 5, .cI .dA .cDmA .none, .cI .dD .cM .none,
        .aSym "R14", .cI .dM .cD .none,
        .aSym "SP", .cI .dM .cMm1 .none, .cI .dA .cM .none, .cI .dD .cM .none,
        .aSym "ARG", .cI .dA .cM .none, .cI .dM .cD .none,
        .aSym "ARG", .cI .dD .cMp1 .none, .aSym "SP", .cI .dM .cD .none] m).ram 0 =
       a + 1 ∧
     (execAsm env [.comment "return",
        .aSym "LCL", .cI .dD .cM .none, .aSym "R13", .cI .dM .cD .none,
        .aNum 5, .cI .dA .cDmA .none, .cI .dD .cM .none,
        .aSym "R14", .cI .dM .cD .none,
        .aSym "SP", .cI .dM .cMm1 .none, .cI .dA .cM .none, .cI .dD .cM .none,
        .aSym "ARG", .cI .dA .cM .none, .cI .dM .cD .none,
        .aSym "ARG", .cI .dD .cMp1 .none, .aSym "SP", .cI .dM .cD .none] m).ram a =
       m.ram (S - 1) ∧
     (execAsm env [.comment "return",
        .aSym "LCL", .cI .dD .cM .none, .aSym "R13", .cI .dM .cD .none,
        .aNum 5, .cI .dA .cDmA .none, .cI .dD .cM .none,
        .aSym "R14", .cI .dM .cD .none,
        .aSym "SP", .cI .dM .cMm1 .none, .cI .dA .cM .none, .cI .dD .cM .none,
        .aSym "ARG", .cI .dA .cM .none, .cI .dM .cD .none,
        .aSym "ARG", .cI .dD .cMp1 .none, .aSym "SP", .cI .dM .cD .none] m).ram 13 =
       L ∧
     (execAsm env [.comment "return",
        .aSym "LCL", .cI .dD .cM .none, .aSym "R13", .cI .dM .cD .none,
        .aNum 5, .cI .dA .cDmA .none, .cI .dD .cM .none,
        .aSym "R14", .cI .dM .cD .none,
        .aSym "SP", .cI .dM .cMm1 .none, .cI .dA .cM .none, .cI .dD .cM .none,
        .aSym "ARG", .cI .dA .cM .none, .cI .dM .cD .none,
        .aSym "ARG", .cI .dD .cMp1 .none, .aSym "SP", .cI .dM .cD .none] m).ram 14 =
       m.ram (L - 5) ∧
     ∀ b, b ≠ 0 → b ≠ 13 → b ≠ 14 → b ≠ a →
       (execAsm env [.comment "return",
          .aSym "LCL", .cI .dD .cM .none, .aSym "R13", .cI .dM .cD .none,
          .aNum 5, .cI .dA .cDmA .none, .cI .dD .cM .none,
          .aSym "R14", .cI .dM .cD .none,
          .aSym "SP", .cI .dM .cMm1 .none, .cI .dA .cM .none, .cI .dD .cM .none,
          .aSym "ARG", .cI .dA .cM .none, .cI .dM .cD .none,
          .aSym "ARG", .cI .dD .cMp1 .none, .aSym "SP", .cI .dM .cD .none] m).ram b =
         m.ram b) := by
  have m13 : (13 : Nat) % 32768 = 13 := by norm_num
  have m14 : (14 : Nat) % 32768 = 14 := by norm_num
  have m2 : (2 : Nat) % 32768 = 2 := by norm_num
  have m1 : (1 : Nat) % 32768 = 1 := by norm_num
  have m5 : ((5 : Int).toNat) % 32768 = 5 := rfl
  have dA : ¬(L - 5 = 13) := by omega
  have dB : ¬((0 : Nat) = 13) := by omega
  have dC : ¬((0 : Nat) = 14) := by omega
  have dD : ¬(S - 1 = 0) := by omega
  have dE : ¬(S - 1 = 14) := by omega
  have dF : ¬(S - 1 = 13) := by omega
  have dG : ¬((2 : Nat) = 0) := by omega
  have dH : ¬((2 : Nat) = 14) := by omega
  have dI : ¬((2 : Nat) = 13) := by omega
  have dJ : ¬((2 : Nat) = a) := by omega
  have dK : ¬((13 : Nat) = 0) := by omega
  have dL : ¬((13 : Nat) = 14) := by omega
  have dM : ¬((13 : Nat) = a) := by omega
  have dN : ¬((14 : Nat) = 0) := by omega
  have dO : ¬((14 : Nat) = a) := by omega
  have dP : ¬((0 : Nat) = a) := by omega
  have dQ : ¬(a = 0) := by omega
  have tUL : toUnsigned ((L : Nat) : Int) = L := toUnsigned_natCast _ (by omega)
  have tUsub5 : toUnsigned (toSigned L - toSigned 5) = L - 5 :=
    toUnsigned_toSigned_sub L 5 hLhi (by omega)
  have tUret : toUnsigned ((m.ram (L - 5) : Nat) : Int) = m.ram (L - 5) :=
    toUnsigned_natCast _ hret
  have tUSm1 : toUnsigned (toSigned S - 1) = S - 1 :=
    toUnsigned_toSigned_sub_one S (by omega) (by omega)
  have tUSm1c : toUnsigned ((S - 1 : Nat) : Int) = S - 1 :=
    toUnsigned_natCast _ (by omega)
  have tUv : toUnsigned ((m.ram (S - 1) : Nat) : Int) = m.ram (S - 1) :=
    toUnsigned_natCast _ hv
  have tUa : toUnsigned ((a : Nat) : Int) = a := toUnsigned_natCast _ (by omega)
  have tUap1 : toUnsigned (toSigned a + 1) = a + 1 :=
    toUnsigned_toSigned_add_one a (by omega)
  have tUap1c : toUnsigned ((a + 1 : Nat) : Int) = a + 1 :=
    toUnsigned_natCast _ (by omega)
  refine ⟨?_, ?_, ?_, ?_, ?_⟩
  · simp only [execAsm, List.foldl_cons, List.foldl_nil, step, Comp.usesM,
      Dest.hasA, Dest.hasD, Dest.hasM, compInt, hSP, hLCL, hARG, hR13, hR14,
      Nat.zero_mod, if_true, if_false, Bool.false_eq_true, wr,
      m13, m14, m2, m1, m5, hL, hS, ha, tUL, tUsub5, tUret, tUSm1, tUSm1c,
      tUv, tUa, tUap1, tUap1c, dA, dB, dC, dD, dE, dF, dG, dH, dI, dJ, dK,
      dL, dM, dN, dO, dP, dQ]
  · simp only [execAsm, List.foldl_cons, List.foldl_nil, step, Comp.usesM,
      Dest.hasA, Dest.hasD, Dest.hasM, compInt, hSP, hLCL, hARG, hR13, hR14,
      Nat.zero_mod, if_true, if_false, Bool.false_eq_true, wr,
      m13, m14, m2, m1, m5, hL, hS, ha, tUL, tUsub5, tUret, tUSm1, tUSm1c,
      tUv, tUa, tUap1, tUap1c, dA, dB, dC, dD, dE, dF, dG, dH, dI, dJ, dK,
      dL, dM, dN, dO, dP, dQ]
  · simp only [execAsm, List.foldl_cons, List.foldl_nil, step, Comp.usesM,
      Dest.hasA, Dest.hasD, Dest.hasM, compInt, hSP, hLCL, hARG, hR13, hR14,
      Nat.zero_mod, if_true, if_false, Bool.false_eq_true, wr,
      m13, m14, m2, m1, m5, hL, hS, ha, tUL, tUsub5, tUret, tUSm1, tUSm1c,
      tUv, tUa, tUap1, tUap1c, dA, dB, dC, dD, dE, dF, dG, dH, dI, dJ, dK,
      dL, dM, dN, dO, dP, dQ]
  · simp only [execAsm, List.foldl_cons, List.foldl_nil, step, Comp.usesM,
      Dest.hasA, Dest.hasD, Dest.hasM, compInt, hSP, hLCL, hARG, hR13, hR14,
      Nat.zero_mod, if_true, if_false, Bool.false_eq_true, wr,
      m13, m14, m2, m1, m5, hL, hS, ha, tUL, tUsub5, tUret, tUSm1, tUSm1c,
      tUv, tUa, tUap1, tUap1c, dA, dB, dC, dD, dE, dF, dG, dH, dI, dJ, dK,
      dL, dM, dN, dO, dP, dQ]
  · intro b hb0 hb13 hb14 hba
    simp only [execAsm, List.foldl_cons, List.foldl_nil, step, Comp.usesM,
      Dest.hasA, Dest.hasD, Dest.hasM, compInt, hSP, hLCL, hARG, hR13, hR14,
      Nat.zero_mod, if_true, if_false, Bool.false_eq_true, wr,
      m13, m14, m2, m1, m5, hL, hS, ha, tUL, tUsub5, tUret, tUSm1, tUSm1c,
      tUv, tUa, tUap1, tUap1c, dA, dB, dC, dD, dE, dF, dG, dH, dI, dJ, dK,
      dL, dM, dN, dO, dP, dQ, hb0, hb13, hb14, hba]

/-- Effect of the full `generate_return` block: the return value moves to
`*ARG`, `SP` becomes `ARG + 1`, THAT/THIS/ARG/LCL are restored from
`FRAME-1` … `FRAME-4`, and the final `A` (the jump target) is the word at
`FRAME-5`, i.e. the saved return address. -/
theorem returnBlock_exec (env : String → Nat)
    (hSP : env "SP" = 0) (hLCL : env "LCL" = 1) (hARG : env "ARG" = 2)
    (hTHIS : env "THIS" = 3) (hTHAT : env "THAT" = 4)
    (hR13 : env "R13" = 13) (hR14 : env "R14" = 14)
    (m : Mach) (L S a : Nat)
    (hL : m.ram 1 = L) (hLlo : 261 ≤ L) (hLhi : L < 32768)
    (hS : m.ram 0 = S) (hSlo : 256 ≤ S) (hShi : S < 32768)
    (ha : m.ram 2 = a) (halo : 256 ≤ a) (hahi : a < 32767)
    (haL : a + 5 ≤ L)
    (hv : m.ram (S - 1) < 65536) (hret : m.ram (L - 5) < 65536)
    (hw1 : m.ram (L - 1) < 65536) (hw2 : m.ram (L - 2) < 65536)
    (hw3 : m.ram (L - 3) < 65536) (hw4 : m.ram (L - 4) < 65536) :
    ((execAsm env generateReturn m).ram 0 = a + 1 ∧
     (execAsm env generateReturn m).ram a = m.ram (S - 1) ∧
     (execAsm env generateReturn m).ram 4 = m.ram (L - 1) ∧
     (execAsm env generateReturn m).ram 3 = m.ram (L - 2) ∧
     (execAsm env generateReturn m).ram 2 = m.ram (L - 3) ∧
     (execAsm env generateReturn m).ram 1 = m.ram (L - 4) ∧
     (execAsm env generateReturn m).A = m.ram (L - 5) ∧
     ∀ b, b ≠ 0 → b ≠ 1 → b ≠ 2 → b ≠ 3 → b ≠ 4 → b ≠ 13 → b ≠ 14 → b ≠ a →
       (execAsm env generateReturn m).ram b = m.ram b) := by
  have hsplit : generateReturn =
      [.comment "return",
       .aSym "LCL", .cI .dD .cM .none, .aSym "R13", .cI .dM .cD .none,
       .aNum 5, .cI .dA .cDmA .none, .cI .dD .cM .none,
       .aSym "R14", .cI .dM .cD .none,
       .aSym "SP", .cI .dM .cMm1 .none, .cI .dA .cM .none, .cI .dD .cM .none,
       .aSym "ARG", .cI .dA .cM .none, .cI .dM .cD .none,
       .aSym "ARG", .cI .dD .cMp1 .none, .aSym "SP", .cI .dM .cD .none] ++
      (restoreLines (1, "THAT") ++ (restoreLines (2, "THIS") ++
        (restoreLines (3, "ARG") ++ (restoreLines (4, "LCL") ++
         [.aSym "R14", .cI .dA .cM .none, .cI .none .c0 .jmp])))) := by
    simp [generateReturn, restoreLines]
  rw [hsplit, execAsm_append, execAsm_append, execAsm_append, execAsm_append,
    execAsm_append]
  obtain ⟨h1, h2, h3, h4, h5⟩ := returnHead_exec env hSP hLCL hARG hR13 hR14
    m L S a hL (by omega) hLhi hS hSlo hShi ha (by omega) hahi hv hret
  set mH := execAsm env [.comment "return",
    .aSym "LCL", .cI .dD .cM .none, .aSym "R13", .cI .dM .cD .none,
    .aNum 5, .cI .dA .cDmA .none, .cI .dD .cM .none,
    .aSym "R14", .cI .dM .cD .none,
    .aSym "SP", .cI .dM .cMm1 .none, .cI .dA .cM .none, .cI .dD .cM .none,
    .aSym "ARG", .cI .dA .cM .none, .cI .dM .cD .none,
    .aSym "ARG", .cI .dD .cMp1 .none, .aSym "SP", .cI .dM .cD .none] m with hmH
  obtain ⟨r1a, r1b⟩ := restoreLine_exec env hR13 1 "THAT" 4 hTHAT (by omega)
    mH L h3 hLhi (by omega) (by omega)
    (by rw [h5 (L - 1) (by omega) (by omega) (by omega) (by omega)]; exact hw1)
  set m1 := execAsm env (restoreLines (1, "THAT")) mH with hm1
  have h13a : m1.ram 13 = L := by
    rw [r1b 13 (by omega)]; exact h3
  obtain ⟨r2a, r2b⟩ := restoreLine_exec env hR13 2 "THIS" 3 hTHIS (by omega)
    m1 L h13a hLhi (by omega) (by omega)
    (by rw [r1b (L - 2) (by omega),
      h5 (L - 2) (by omega) (by omega) (by omega) (by omega)]; exact hw2)
  set m2 := execAsm env (restoreLines (2, "THIS")) m1 with hm2
  have h13b : m2.ram 13 = L := by
    rw [r2b 13 (by omega)]; exact h13a
  obtain ⟨r3a, r3b⟩ := restoreLine_exec env hR13 3 "ARG" 2 hARG (by omega)
    m2 L h13b hLhi (by omega) (by omega)
    (by rw [r2b (L - 3) (by omega), r1b (L - 3) (by omega),
      h5 (L - 3) (by omega) (by omega) (by omega) (by omega)]; exact hw3)
  set m3 := execAsm env (restoreLines (3, "ARG")) m2 with hm3
  have h13c : m3.ram 13 = L := by
    rw [r3b 13 (by omega)]; exact h13b
  obtain ⟨r4a, r4b⟩ := restoreLine_exec env hR13 4 "LCL" 1 hLCL (by omega)
    m3 L h13c hLhi (by omega) (by omega)
    (by rw [r3b (L - 4) (by omega), r2b (L - 4) (by omega), r1b (L - 4) (by omega),
      h5 (L - 4) (by omega) (by omega) (by omega) (by omega)]; exact hw4)
  set m4 := execAsm env (restoreLines (4, "LCL")) m3 with hm4
  have htail_ram : ∀ (mm : Mach) (b : Nat),
      (execAsm env [.aSym "R14", .cI .dA .cM .none, .cI .none .c0 .jmp] mm).ram b =
        mm.ram b := fun mm b => rfl
  have h14 : m4.ram 14 = m.ram (L - 5) := by
    rw [r4b 14 (by omega), r3b 14 (by omega), r2b 14 (by omega), r1b 14 (by omega)]
    exact h4
  have htail_A :
      (execAsm env [.aSym "R14", .cI .dA .cM .none, .cI .none .c0 .jmp] m4).A =
        m.ram (L - 5) := by
    have m14 : (14 : Nat) % 32768 = 14 := by norm_num
    simp only [execAsm, List.foldl_cons, List.foldl_nil, step, Comp.usesM,
      Dest.hasA, Dest.hasD, Dest.hasM, compInt, hR14, m14, if_true, if_false,
      Bool.false_eq_true, h14]
    exact toUnsigned_natCast _ hret
  refine ⟨?_, ?_, ?_, ?_, ?_, ?_, htail_A, ?_⟩
  · rw [htail_ram, r4b 0 (by omega), r3b 0 (by omega), r2b 0 (by omega),
      r1b 0 (by omega)]
    exact h1
  · rw [htail_ram, r4b a (by omega), r3b a (by omega), r2b a (by omega),
      r1b a (by omega)]
    exact h2
  · rw [htail_ram, r4b 4 (by omega), r3b 4 (by omega), r2b 4 (by omega), r1a,
      h5 (L - 1) (by omega) (by omega) (by omega) (by omega)]
  · rw [htail_ram, r4b 3 (by omega), r3b 3 (by omega), r2a,
      r1b (L - 2) (by omega), h5 (L - 2) (by omega) (by omega) (by omega) (by omega)]
  · rw [htail_ram, r4b 2 (by omega), r3a, r2b (L - 3) (by omega),
      r1b (L - 3) (by omega), h5 (L - 3) (by omega) (by omega) (by omega) (by omega)]
  · rw [htail_ram, r4a, r3b (L - 4) (by omega), r2b (L - 4) (by omega),
      r1b (L - 4) (by omega), h5 (L - 4) (by omega) (by omega) (by omega) (by omega)]
  · intro b hb0 hb1 hb2 hb3 hb4 hb13 hb14 hba
    rw [htail_ram, r4b b hb1, r3b b hb2, r2b b hb3, r1b b hb4,
      h5 b hb0 hb13 hb14 hba]

/-! ## Synthesized comparison labels (claim C2) -/

/-- Is the command a comparison (`eq`, `gt`, `lt`)? -/
def isComparison : Command → Bool
  | .arithmetic op => op = "eq" ∨ op = "gt" ∨ op = "lt"
  | _ => false

/-- Number of comparison commands. -/
def compCount (cmds : List Command) : Nat := cmds.countP isComparison

/-- The comparison labels synthesized by `K` comparison blocks starting at
label counter `c`: `TRUE_c, END_c, TRUE_{c+1}, …`. -/
def synthLabels : Nat → Nat → List String
  | _, 0 => []
  | c, k + 1 =>
    ("TRUE_" ++ natStr c) :: ("END_" ++ natStr c) :: synthLabels (c + 1) k

theorem synthLabels_length (c k : Nat) : (synthLabels c k).length = 2 * k := by
  induction k generalizing c with
  | zero => rfl
  | succ k ih => simp [synthLabels, ih]; omega

theorem true_ne_end (a b : Nat) : "TRUE_" ++ natStr a ≠ "END_" ++ natStr b := by
  intro h
  have hd := congrArg String.data h
  rw [string_data_append, string_data_append] at hd
  have hT : "TRUE_".data = ['T', 'R', 'U', 'E', '_'] := rfl
  have hE : "END_".data = ['E', 'N', 'D', '_'] := rfl
  rw [hT, hE] at hd
  simp at hd

theorem mem_synthLabels {l : String} {c k : Nat} (h : l ∈ synthLabels c k) :
    ∃ j, j < k ∧ (l = "TRUE_" ++ natStr (c + j) ∨ l = "END_" ++ natStr (c + j)) := by
  induction k generalizing c with
  | zero => simp [synthLabels] at h
  | succ k ih =>
    simp only [synthLabels, List.mem_cons] at h
    rcases h with rfl | rfl | h
    · exact ⟨0, by omega, Or.inl (by rw [Nat.add_zero])⟩
    · exact ⟨0, by omega, Or.inr (by rw [Nat.add_zero])⟩
    · obtain ⟨j, hj, hl⟩ := ih h
      exact ⟨j + 1, by omega, by rwa [show c + (j + 1) = c + 1 + j by omega]⟩

theorem synthLabels_nodup (c k : Nat) : (synthLabels c k).Nodup := by
  induction k generalizing c with
  | zero => exact List.nodup_nil
  | succ k ih =>
    refine List.Nodup.cons ?_ (List.Nodup.cons ?_ (ih (c + 1)))
    · intro hmem
      simp only [List.mem_cons] at hmem
      rcases hmem with h | h
      · exact true_ne_end c c h
      · obtain ⟨j, hj, hl⟩ := mem_synthLabels h
        rcases hl with h' | h'
        · have := append_natStr_inj "TRUE_" h'
          omega
        · exact true_ne_end c (c + 1 + j) h'
    · intro hmem
      obtain ⟨j, hj, hl⟩ := mem_synthLabels hmem
      rcases hl with h' | h'
      · exact true_ne_end (c + 1 + j) c h'.symm
      · have := append_natStr_inj "END_" h'
        omega

theorem synthLabels_append (c k1 k2 : Nat) :
    synthLabels c (k1 + k2) = synthLabels c k1 ++ synthLabels (c + k1) k2 := by
  induction k1 generalizing c with
  | zero => simp [synthLabels]
  | succ k1 ih =>
    have : k1 + 1 + k2 = (k1 + k2) + 1 := by omega
    rw [this]
    simp only [synthLabels, List.cons_append]
    rw [ih (c + 1), show c + 1 + k1 = c + (k1 + 1) by omega]

/-- A comparison command's generated block declares its two fresh labels and
bumps the label counter by one. -/
theorem generate_comparison (op : String) (st : GenState)
    (hop : op = "eq" ∨ op = "gt" ∨ op = "lt") :
    ∃ ls, generate (.arithmetic op) st = (.ok (some ls), { st with labelCounter := st.labelCounter + 1 }) ∧
      AsmLine.labelDecl ("TRUE_" ++ natStr st.labelCounter) ∈ ls ∧
      AsmLine.labelDecl ("END_" ++ natStr st.labelCounter) ∈ ls := by
  rcases hop with rfl | rfl | rfl <;>
    exact ⟨_, rfl, by simp, by simp⟩

/-- Non-comparison commands leave the label counter unchanged. -/
theorem generate_labelCounter_eq (c : Command) (st : GenState)
    (h : isComparison c = false) :
    (generate c st).2.labelCounter = st.labelCounter := by
  cases c with
  | arithmetic op =>
    simp only [isComparison, decide_eq_false_iff_not] at h
    push_neg at h
    obtain ⟨h1, h2, h3⟩ := h
    simp only [generate, generateArithmetic]
    by_cases ha : op ∈ ["add", "sub", "and", "or"]
    · simp [ha]
    · by_cases hb : op ∈ ["neg", "not"]
      · simp [ha, hb]
      · have hc : ¬(op ∈ ["eq", "gt", "lt"]) := by
          simp only [List.mem_cons, List.not_mem_nil, or_false]
          push_neg
          exact ⟨h1, h2, h3⟩
        simp [ha, hb, hc]
  | push s i => rfl
  | pop s i => rfl
  | label l => rfl
  | goto l => rfl
  | ifGoto l => rfl
  | function n k => rfl
  | call n a => rfl
  | ret => rfl

/-- Generating a command list starting at label counter `c` advances the
counter by the number of comparisons and emits every synthesized comparison
label as a label declaration. -/
theorem genList_labels (cmds : List Command) :
    ∀ (st : GenState) (out : List AsmLine) (stF : GenState),
    genList cmds st = .ok (out, stF) →
    stF.labelCounter = st.labelCounter + compCount cmds ∧
    ∀ l ∈ synthLabels st.labelCounter (compCount cmds),
      AsmLine.labelDecl l ∈ out := by
  induction cmds with
  | nil =>
    intro st out stF h
    rw [genList] at h
    simp only [Except.ok.injEq, Prod.mk.injEq] at h
    obtain ⟨rfl, rfl⟩ := h
    exact ⟨by simp [compCount], by simp [compCount, synthLabels]⟩
  | cons c cs ih =>
    intro st out stF h
    rw [genList] at h
    match hg : generate c st with
    | (r, st1) =>
      rw [hg] at h
      dsimp only at h
      match r with
      | .error e => simp [writeAsm] at h
      | .ok Option.none => simp [writeAsm] at h
      | .ok (Option.some ls) =>
        simp only [writeAsm] at h
        match ht : genList cs st1 with
        | .error e => rw [ht] at h; simp [Except.map] at h
        | .ok (out1, st1F) =>
          rw [ht] at h
          simp only [Except.map, Except.ok.injEq, Prod.mk.injEq] at h
          obtain ⟨rfl, rfl⟩ := h
          obtain ⟨ihc, ihm⟩ := ih st1 out1 st1F ht
          by_cases hcomp : isComparison c = true
          · cases c with
            | arithmetic op =>
              have hop : op = "eq" ∨ op = "gt" ∨ op = "lt" := by
                simpa [isComparison] using hcomp
              obtain ⟨ls0, hgen, hT, hE⟩ := generate_comparison op st hop
              rw [hgen] at hg
              simp only [Prod.mk.injEq, Except.ok.injEq, Option.some.injEq] at hg
              obtain ⟨rfl, hst1⟩ := hg
              have hcnt : compCount (Command.arithmetic op :: cs) =
                  compCount cs + 1 := by
                simp [compCount, List.countP_cons, hcomp]
              have hc1 : st1.labelCounter = st.labelCounter + 1 := by
                rw [← hst1]
              refine ⟨by rw [hcnt]; omega, ?_⟩
              intro l hl
              rw [hcnt] at hl
              rw [synthLabels] at hl
              simp only [List.mem_cons] at hl
              rcases hl with rfl | rfl | hl
              · exact List.mem_append_left _ hT
              · exact List.mem_append_left _ hE
              · refine List.mem_append_right _ (ihm l ?_)
                rwa [hc1]
            | push s i => simp [isComparison] at hcomp
            | pop s i => simp [isComparison] at hcomp
            | label l => simp [isComparison] at hcomp
            | goto l => simp [isComparison] at hcomp
            | ifGoto l => simp [isComparison] at hcomp
            | function n k => simp [isComparison] at hcomp
            | call n a => simp [isComparison] at hcomp
            | ret => simp [isComparison] at hcomp
          · have hcomp' : isComparison c = false := by
              simpa using hcomp
            have hc1 : st1.labelCounter = st.labelCounter := by
              have := generate_labelCounter_eq c st hcomp'
              rwa [hg] at this
            have hcnt : compCount (c :: cs) = compCount cs := by
              simp [compCount, List.countP_cons, hcomp']
            refine ⟨by rw [hcnt]; omega, ?_⟩
            intro l hl
            rw [hcnt] at hl
            refine List.mem_append_right _ (ihm l ?_)
            rwa [hc1]

/-- Comparison commands in one unit's clean command stream. -/
def unitComps (lines : List String) : Nat :=
  match parsedCommands lines with
  | .ok cmds => compCount cmds
  | .error _ => 0

/-- Total comparison commands over all units of a run. -/
def totalComps (units : List (String × List String)) : Nat :=
  (units.map (fun u => unitComps u.2)).sum

/-- Threading the shared label counter through a whole run: the counter
advances by the total number of comparisons, and each synthesized label is
declared in the emitted assembly. -/
theorem translateUnits_labels (units : List (String × List String)) :
    ∀ (st : GenState) (o : List AsmLine) (stF : GenState),
    translateUnits units st = .ok (o, stF) →
    (∀ u ∈ units, deliveredCommands u.2 = parsedCommands u.2) →
    stF.labelCounter = st.labelCounter + totalComps units ∧
    ∀ l ∈ synthLabels st.labelCounter (totalComps units),
      AsmLine.labelDecl l ∈ o := by
  induction units with
  | nil =>
    intro st o stF h _
    rw [translateUnits] at h
    simp only [Except.ok.injEq, Prod.mk.injEq] at h
    obtain ⟨rfl, rfl⟩ := h
    exact ⟨by simp [totalComps], by simp [totalComps, synthLabels]⟩
  | cons u rest ih =>
    intro st o stF h hclean
    match u with
    | (name, lines) =>
      rw [translateUnits] at h
      match hloop : translateLoop lines Option.none
          { st with currentFile := pyEraseVm name } with
      | .error e => rw [hloop] at h; exact absurd h (by simp)
      | .ok (out, st2) =>
        rw [hloop] at h
        dsimp only at h
        match hrest : translateUnits rest st2 with
        | .error e => rw [hrest] at h; simp [Except.map] at h
        | .ok (o2, stF') =>
          rw [hrest] at h
          simp only [Except.map, Except.ok.injEq, Prod.mk.injEq] at h
          obtain ⟨rfl, rfl⟩ := h
          obtain ⟨cmds, hdel, hgen⟩ := translateLoop_ok lines Option.none _ _ hloop
          have hparsed : parsedCommands lines = .ok cmds := by
            rw [← hclean (name, lines) (List.mem_cons_self _ _)]
            exact hdel
          have hcomps : unitComps lines = compCount cmds := by
            rw [unitComps, hparsed]
          obtain ⟨hc2, hmem⟩ := genList_labels cmds _ out st2 hgen
          have hstc : ({ st with currentFile := pyEraseVm name } :
              GenState).labelCounter = st.labelCounter := rfl
          rw [hstc] at hc2 hmem
          obtain ⟨hcF, hmemF⟩ := ih st2 o2 stF' hrest
            (fun x hx => hclean x (List.mem_cons_of_mem _ hx))
          have htot : totalComps ((name, lines) :: rest) =
              unitComps lines + totalComps rest := by
            simp [totalComps]
          constructor
          · rw [htot, hcF, hc2, hcomps]
            omega
          · intro l hl
            rw [htot, hcomps, synthLabels_append] at hl
            rcases List.mem_append.mp hl with hl | hl
            · have : AsmLine.labelDecl l ∈ out := hmem l hl
              simp [this]
            · have : AsmLine.labelDecl l ∈ o2 := by
                apply hmemF l
                rwa [hc2]
              simp [this]

/-! ## Claims -/

/-- C8: for every index, `generate_pop` on segment `constant` raises the
generation-time `ValueError` (it is never lowered to assembly), while
`generate_push` on `constant` succeeds and its block pushes the literal
value: SP rises by one and the old top-of-stack cell receives the literal.
-/
theorem claimC8 (env : String → Nat) (hSP : env "SP" = 0)
    (f : String) (i : Int) (m : Mach) (sp : Nat)
    (hsp : m.ram 0 = sp) (hsp1 : 1 ≤ sp) (hsp2 : sp < 65535)
    (hi0 : 0 ≤ i) (hi1 : i < 32768) :
    generatePop f "constant" i = .error "Cannot pop to constant segment" ∧
    ((generatePush f "constant" i).isSome = true ∧
     (execAsm env ((generatePush f "constant" i).getD []) m).ram 0 = sp + 1 ∧
     (execAsm env ((generatePush f "constant" i).getD []) m).ram sp = i.toNat) := by
  obtain ⟨h1, h2, _⟩ := pushConstant_exec env hSP f i m sp hsp hsp1 hsp2 hi0 hi1
  exact ⟨rfl, by simp [generatePush], h1, h2⟩

/-- Witness for C8 at `i = 7`, `SP = 300`. -/
theorem claimC8_witness :
    generatePop "Main" "constant" 7 = .error "Cannot pop to constant segment" ∧
    ((generatePush "Main" "constant" 7).isSome = true ∧
     (execAsm (symAddr (fun _ => 16)) ((generatePush "Main" "constant" 7).getD [])
        ⟨0, 0, fun a => if a = 0 then 300 else 0⟩).ram 0 = 300 + 1 ∧
     (execAsm (symAddr (fun _ => 16)) ((generatePush "Main" "constant" 7).getD [])
        ⟨0, 0, fun a => if a = 0 then 300 else 0⟩).ram 300 = (7 : Int).toNat) :=
  claimC8 (symAddr (fun _ => 16)) (by decide) "Main" 7
    ⟨0, 0, fun a => if a = 0 then 300 else 0⟩ 300 (by decide) (by decide)
    (by decide) (by decide) (by decide)

/-- C10: for `push pointer` and `pop pointer` the generator treats every
index other than 0 as addressing the THAT cell (address 4): generation
succeeds with no error, the push block reads the THAT cell and the pop
block writes it, while only index 0 addresses the THIS cell (address 3). -/
theorem claimC10 (env : String → Nat) (hSP : env "SP" = 0)
    (hTHIS : env "THIS" = 3) (hTHAT : env "THAT" = 4)
    (f : String) (i : Int) (hi : i ≠ 0) (m : Mach) (sp : Nat)
    (hsp : m.ram 0 = sp) (hsp1 : 15 ≤ sp) (hsp2 : sp < 65535)
    (hv3 : m.ram 3 < 65536) (hv4 : m.ram 4 < 65536)
    (hvp : m.ram (sp - 1) < 65536) :
    ((generatePush f "pointer" i).isSome = true ∧
     (execAsm env ((generatePush f "pointer" i).getD []) m).ram 0 = sp + 1 ∧
     (execAsm env ((generatePush f "pointer" i).getD []) m).ram sp = m.ram 4) ∧
    ((generatePop f "pointer" i).isOk = true ∧
     (execAsm env (match generatePop f "pointer" i with
        | .ok (Option.some ls) => ls
        | _ => []) m).ram 0 = sp - 1 ∧
     (execAsm env (match generatePop f "pointer" i with
        | .ok (Option.some ls) => ls
        | _ => []) m).ram 4 = m.ram (sp - 1)) ∧
    (execAsm env ((generatePush f "pointer" 0).getD []) m).ram sp = m.ram 3 := by
  have hpush : generatePush f "pointer" i =
      some [.comment ("push pointer " ++ intStr i),
        .aSym "THAT", .cI .dD .cM .none,
        .aSym "SP", .cI .dA .cM .none, .cI .dM .cD .none,
        .aSym "SP", .cI .dM .cMp1 .none] := by
    simp [generatePush, hi]
  have hpop : generatePop f "pointer" i =
      .ok (some [.comment ("pop pointer " ++ intStr i),
        .aSym "SP", .cI .dM .cMm1 .none, .cI .dA .cM .none, .cI .dD .cM .none,
        .aSym "THAT", .cI .dM .cD .none]) := by
    simp [generatePop, hi]
  have hpush0 : generatePush f "pointer" 0 =
      some [.comment ("push pointer " ++ intStr 0),
        .aSym "THIS", .cI .dD .cM .none,
        .aSym "SP", .cI .dA .cM .none, .cI .dM .cD .none,
        .aSym "SP", .cI .dM .cMp1 .none] := by
    simp [generatePush]
  obtain ⟨p1, p2, _⟩ := pushSymBlock_exec env hSP ("push pointer " ++ intStr i)
    "THAT" m sp 4 hTHAT (by omega) hv4 hsp (by omega) hsp2
  obtain ⟨q1, q2, _⟩ := popSymBlock_exec env hSP ("pop pointer " ++ intStr i)
    "THAT" m sp 4 hTHAT (by omega) (by omega) hvp hsp hsp1 (by omega)
  obtain ⟨r1, r2, _⟩ := pushSymBlock_exec env hSP ("push pointer " ++ intStr 0)
    "THIS" m sp 3 hTHIS (by omega) hv3 hsp (by omega) hsp2
  rw [hpush, hpop, hpush0]
  exact ⟨⟨rfl, p1, p2⟩, ⟨rfl, q1, q2⟩, r2⟩

/-- Witness for C10 at the out-of-range index `i = 2`. -/
theorem claimC10_witness :
    (((generatePush "Main" "pointer" 2).isSome = true ∧
      (execAsm (symAddr (fun _ => 16))
        ((generatePush "Main" "pointer" 2).getD [])
        ⟨0, 0, fun a => if a = 0 then 300 else if a = 3 then 77 else if a = 4 then 88 else if a = 299 then 55 else 0⟩).ram 0 = 300 + 1 ∧
      (execAsm (symAddr (fun _ => 16))
        ((generatePush "Main" "pointer" 2).getD [])
        ⟨0, 0, fun a => if a = 0 then 300 else if a = 3 then 77 else if a = 4 then 88 else if a = 299 then 55 else 0⟩).ram 300 =
        (⟨0, 0, fun a => if a = 0 then 300 else if a = 3 then 77 else if a = 4 then 88 else if a = 299 then 55 else 0⟩ : Mach).ram 4) ∧
     ((generatePop "Main" "pointer" 2).isOk = true ∧
      (execAsm (symAddr (fun _ => 16)) (match generatePop "Main" "pointer" 2 with
         | .ok (Option.some ls) => ls
         | _ => [])
        ⟨0, 0, fun a => if a = 0 then 300 else if a = 3 then 77 else if a = 4 then 88 else if a = 299 then 55 else 0⟩).ram 0 = 300 - 1 ∧
      (execAsm (symAddr (fun _ => 16)) (match generatePop "Main" "pointer" 2 with
         | .ok (Option.some ls) => ls
         | _ => [])
        ⟨0, 0, fun a => if a = 0 then 300 else if a = 3 then 77 else if a = 4 then 88 else if a = 299 then 55 else 0⟩).ram 4 =
        (⟨0, 0, fun a => if a = 0 then 300 else if a = 3 then 77 else if a = 4 then 88 else if a = 299 then 55 else 0⟩ : Mach).ram (300 - 1)) ∧
     (execAsm (symAddr (fun _ => 16))
        ((generatePush "Main" "pointer" 0).getD [])
        ⟨0, 0, fun a => if a = 0 then 300 else if a = 3 then 77 else if a = 4 then 88 else if a = 299 then 55 else 0⟩).ram 300 =
        (⟨0, 0, fun a => if a = 0 then 300 else if a = 3 then 77 else if a = 4 then 88 else if a = 299 then 55 else 0⟩ : Mach).ram 3) :=
  claimC10 (symAddr (fun _ => 16)) (by decide) (by decide) (by decide) "Main" 2
    (by decide)
    ⟨0, 0, fun a => if a = 0 then 300 else if a = 3 then 77 else if a = 4 then 88 else if a = 299 then 55 else 0⟩
    300 (by decide) (by decide) (by decide) (by decide) (by decide) (by decide)

/-- Two translation runs over the same units, each performed by a fresh
translator (`VMTranslator.__init__` constructs a fresh `CodeGenerator`,
whose label and call-site counters start at zero). -/
def translateTwice (units : List (String × List String)) :
    Except String (List AsmLine) × Except String (List AsmLine) :=
  (translateRun units, translateRun units)

/-- C9: translating the same input twice with two fresh translator
instances yields identical assembly output.  In the embedding the label and
call-site counters are fields of the generator state created afresh by
`mkCodeGenerator` inside `translateRun`, so the output is a pure function
of the input and no counter value can leak between runs. -/
theorem claimC9 (units : List (String × List String)) :
    (translateTwice units).1 = (translateTwice units).2 := rfl

/-- The four binary arithmetic operations each generate the shared
pop-pop-compute-push block with their own ALU computation field. -/
theorem generateArithmetic_bin (st : GenState) (op : String) (cmp : Comp)
    (h : (op = "add" ∧ cmp = .cDpM) ∨ (op = "sub" ∧ cmp = .cMmD) ∨
      (op = "and" ∧ cmp = .cDandM) ∨ (op = "or" ∧ cmp = .cDorM)) :
    (generateArithmetic st op).1 = some [.comment op,
      .aSym "SP", .cI .dM .cMm1 .none, .cI .dA .cM .none, .cI .dD .cM .none,
      .aSym "SP", .cI .dM .cMm1 .none, .cI .dA .cM .none,
      .cI .dM cmp .none,
      .aSym "SP", .cI .dM .cMp1 .none] := by
  rcases h with ⟨h1, h2⟩ | ⟨h1, h2⟩ | ⟨h1, h2⟩ | ⟨h1, h2⟩ <;>
    subst h1 <;> subst h2 <;> rfl

/-- C7: each generated binary arithmetic block pops two words and pushes
one result (SP drops by exactly one and no cell below the result is
touched); `sub` leaves first-pushed minus second-pushed; and for `add`,
`and`, `or`, swapping the two operand words on the stack yields the same
pushed result. -/
theorem claimC7 (env : String → Nat) (hSP : env "SP" = 0) (st : GenState)
    (m mSwap : Mach) (sp x y : Nat)
    (hsp : m.ram 0 = sp) (hsps : mSwap.ram 0 = sp)
    (h15 : 15 ≤ sp) (hlt : sp < 65536)
    (hx : m.ram (sp - 2) = x) (hy : m.ram (sp - 1) = y)
    (hxs : mSwap.ram (sp - 2) = y) (hys : mSwap.ram (sp - 1) = x)
    (hxlt : x < 65536) (hylt : y < 65536) :
    (∀ op, op ∈ ["add", "sub", "and", "or"] →
      (execAsm env ((generateArithmetic st op).1.getD []) m).ram 0 = sp - 1 ∧
      ∀ b, b ≠ 0 → b ≠ sp - 2 →
        (execAsm env ((generateArithmetic st op).1.getD []) m).ram b =
          m.ram b) ∧
    (execAsm env ((generateArithmetic st "sub").1.getD []) m).ram (sp - 2) =
      toUnsigned (toSigned x - toSigned y) ∧
    (∀ op, op ∈ ["add", "and", "or"] →
      (execAsm env ((generateArithmetic st op).1.getD []) m).ram (sp - 2) =
        (execAsm env ((generateArithmetic st op).1.getD []) mSwap).ram
          (sp - 2)) := by
  have hyb : m.ram (sp - 1) < 65536 := by rw [hy]; exact hylt
  have hybs : mSwap.ram (sp - 1) < 65536 := by rw [hys]; exact hxlt
  refine ⟨?_, ?_, ?_⟩
  · intro op hop
    simp only [List.mem_cons, List.not_mem_nil, or_false] at hop
    rcases hop with rfl | rfl | rfl | rfl
    · rw [generateArithmetic_bin st "add" .cDpM (Or.inl ⟨rfl, rfl⟩),
        Option.getD_some]
      exact ⟨(arithBinBlock_exec env hSP "add" .cDpM rfl m sp hsp h15 hlt
        hyb).1,
        (arithBinBlock_exec env hSP "add" .cDpM rfl m sp hsp h15 hlt
          hyb).2.2⟩
    · rw [generateArithmetic_bin st "sub" .cMmD (Or.inr (Or.inl ⟨rfl, rfl⟩)),
        Option.getD_some]
      exact ⟨(arithBinBlock_exec env hSP "sub" .cMmD rfl m sp hsp h15 hlt
        hyb).1,
        (arithBinBlock_exec env hSP "sub" .cMmD rfl m sp hsp h15 hlt
          hyb).2.2⟩
    · rw [generateArithmetic_bin st "and" .cDandM
        (Or.inr (Or.inr (Or.inl ⟨rfl, rfl⟩))), Option.getD_some]
      exact ⟨(arithBinBlock_exec env hSP "and" .cDandM rfl m sp hsp h15 hlt
        hyb).1,
        (arithBinBlock_exec env hSP "and" .cDandM rfl m sp hsp h15 hlt
          hyb).2.2⟩
    · rw [generateArithmetic_bin st "or" .cDorM
        (Or.inr (Or.inr (Or.inr ⟨rfl, rfl⟩))), Option.getD_some]
      exact ⟨(arithBinBlock_exec env hSP "or" .cDorM rfl m sp hsp h15 hlt
        hyb).1,
        (arithBinBlock_exec env hSP "or" .cDorM rfl m sp hsp h15 hlt
          hyb).2.2⟩
  · rw [generateArithmetic_bin st "sub" .cMmD (Or.inr (Or.inl ⟨rfl, rfl⟩)),
      Option.getD_some]
    have h := (arithBinBlock_exec env hSP "sub" .cMmD rfl m sp hsp h15 hlt
      hyb).2.1
    rw [h, hx, hy]
    rfl
  · intro op hop
    simp only [List.mem_cons, List.not_mem_nil, or_false] at hop
    rcases hop with rfl | rfl | rfl
    · have h1 := (arithBinBlock_exec env hSP "add" .cDpM rfl m sp hsp h15
        hlt hyb).2.1
      have h2 := (arithBinBlock_exec env hSP "add" .cDpM rfl mSwap sp hsps
        h15 hlt hybs).2.1
      rw [generateArithmetic_bin st "add" .cDpM (Or.inl ⟨rfl, rfl⟩),
        Option.getD_some, h1, h2, hx, hy, hxs, hys]
      simp only [compInt]
      rw [Int.add_comm]
    · have h1 := (arithBinBlock_exec env hSP "and" .cDandM rfl m sp hsp h15
        hlt hyb).2.1
      have h2 := (arithBinBlock_exec env hSP "and" .cDandM rfl mSwap sp hsps
        h15 hlt hybs).2.1
      rw [generateArithmetic_bin st "and" .cDandM
        (Or.inr (Or.inr (Or.inl ⟨rfl, rfl⟩))), Option.getD_some,
        h1, h2, hx, hy, hxs, hys]
      simp only [compInt]
      exact congrArg (fun n : Nat => toUnsigned (n : Int)) (Nat.land_comm y x)
    · have h1 := (arithBinBlock_exec env hSP "or" .cDorM rfl m sp hsp h15
        hlt hyb).2.1
      have h2 := (arithBinBlock_exec env hSP "or" .cDorM rfl mSwap sp hsps
        h15 hlt hybs).2.1
      rw [generateArithmetic_bin st "or" .cDorM
        (Or.inr (Or.inr (Or.inr ⟨rfl, rfl⟩))), Option.getD_some,
        h1, h2, hx, hy, hxs, hys]
      simp only [compInt]
      exact congrArg (fun n : Nat => toUnsigned (n : Int)) (Nat.lor_comm y x)

/-- Witness for C7 with operands `7` then `5` on the stack at `SP = 300`:
the generated `sub` block leaves `7 - 5` below the new stack top. -/
theorem claimC7_witness :
    (execAsm (symAddr (fun _ => 16))
      ((generateArithmetic (mkCodeGenerator Option.none) "sub").1.getD [])
      ⟨0, 0, fun a => if a = 0 then 300 else if a = 298 then 7 else
        if a = 299 then 5 else 0⟩).ram (300 - 2) =
      toUnsigned (toSigned 7 - toSigned 5) :=
  (claimC7 (symAddr (fun _ => 16)) (by decide) (mkCodeGenerator Option.none)
    ⟨0, 0, fun a => if a = 0 then 300 else if a = 298 then 7 else
      if a = 299 then 5 else 0⟩
    ⟨0, 0, fun a => if a = 0 then 300 else if a = 298 then 5 else
      if a = 299 then 7 else 0⟩
    300 7 5 (by decide) (by decide) (by decide) (by decide) (by decide)
    (by decide) (by decide) (by decide) (by decide) (by decide)).2.1

/-- Taking the length of the left part of an append returns it. -/
theorem takeLenAppend {α : Type} (l₁ l₂ : List α) :
    (l₁ ++ l₂).take l₁.length = l₁ := by
  induction l₁ with
  | nil => rfl
  | cons a l ih => simp [List.take_succ_cons, ih]

/-- Indexing an append at the length of the left part hits the head of the
right part. -/
theorem getElemAppendLen {α : Type} (l₁ : List α) (x : α) (l₂ : List α) :
    (l₁ ++ x :: l₂)[l₁.length]? = some x := by
  induction l₁ with
  | nil => simp
  | cons a l ih => simpa using ih

/-- C3 counterexample: the sequence `push constant 5; pop that 0` never pops
more than was pushed, yet from the bootstrap state (`SP = 256`, all other
RAM cells zero) the simulated generated assembly leaves `SP = 5`, not the
predicted `256 + pushes - pops = 256`: the pop block stores through the
zero-valued THAT base into RAM address 0, the SP cell itself. -/
theorem claimC3_counterexample :
    popCount [Command.push "constant" 5, Command.pop "that" 0] ≤
      pushCount [Command.push "constant" 5, Command.pop "that" 0] ∧
    (runPP (symAddr (fun _ => 16)) "Main"
      ⟨0, 0, fun a => if a = 0 then 256 else 0⟩
      [Command.push "constant" 5, Command.pop "that" 0]).ram 0 = 5 ∧
    256 + pushCount [Command.push "constant" 5, Command.pop "that" 0] -
      popCount [Command.push "constant" 5, Command.pop "that" 0] = 256 := by
  exact ⟨by decide, by decide, by decide⟩

/-- C3 (amended): for a command sequence of generator-accepted push/pop
commands that never pops more than was previously pushed, *and whose pop
blocks never store to RAM address 0 (the SP cell)*, simulating the generated
assembly from `SP = 256` leaves `SP` exactly at `256 + pushes - pops`;
moreover each push block raises SP by exactly one word and each pop block
(again, when not storing to the SP cell) lowers it by exactly one word. -/
theorem claimC3 (env : String → Nat) (file : String)
    (hSP : env "SP" = 0) (hLCL : env "LCL" = 1) (hARG : env "ARG" = 2)
    (hTHIS : env "THIS" = 3) (hTHAT : env "THAT" = 4) (hR13 : env "R13" = 13)
    (henvlt : ∀ s, env s < 32768)
    (cmds : List Command) (m : Mach)
    (hwf : m.wf) (hvalid : ∀ c ∈ cmds, validPP c)
    (hsp : m.ram 0 = 256)
    (hov : 256 + pushCount cmds < 65535)
    (hpre : ∀ n, popCount (cmds.take n) ≤ pushCount (cmds.take n))
    (htgt : ∀ n s i, cmds[n]? = some (Command.pop s i) →
      popTarget env file (runPP env file m (cmds.take n)) s i ≠ 0) :
    (runPP env file m cmds).ram 0 =
      256 + pushCount cmds - popCount cmds ∧
    (∀ c m2, Mach.wf m2 → validPP c → 15 ≤ m2.ram 0 → m2.ram 0 < 65535 →
      (∀ s i, c = Command.pop s i → popTarget env file m2 s i ≠ 0) →
      (isPush c = true →
        (execAsm env (pushPopLines file c) m2).ram 0 = m2.ram 0 + 1) ∧
      (isPop c = true →
        (execAsm env (pushPopLines file c) m2).ram 0 = m2.ram 0 - 1)) := by
  constructor
  · have h := runPP_SP env file hSP hLCL hARG hTHIS hTHAT hR13 henvlt cmds m 0
      hwf hvalid (by omega) (by omega)
      (fun p q hpq => by
        have h2 := hpre p.length
        rw [hpq, takeLenAppend] at h2
        omega)
      (fun p s i q hpq => by
        have hg : cmds[p.length]? = some (Command.pop s i) := by
          rw [hpq]; exact getElemAppendLen p _ q
        have h3 := htgt p.length s i hg
        rwa [hpq, takeLenAppend] at h3)
    rw [h]
  · intro c m2 hwf2 hvc hlo hhi htgt2
    have hstep := pushPop_SP_step env file c m2 hSP hLCL hARG hTHIS hTHAT hR13
      henvlt hwf2 hvc hlo hhi htgt2
    cases c with
    | push s i =>
      dsimp only at hstep
      exact ⟨fun _ => hstep, fun hcontra => by simp [isPop] at hcontra⟩
    | pop s i =>
      dsimp only at hstep
      exact ⟨fun hcontra => by simp [isPush] at hcontra, fun _ => hstep⟩
    | arithmetic op => simp only [validPP] at hvc
    | label l => simp only [validPP] at hvc
    | goto l => simp only [validPP] at hvc
    | ifGoto l => simp only [validPP] at hvc
    | function n k => simp only [validPP] at hvc
    | call n k => simp only [validPP] at hvc
    | ret => simp only [validPP] at hvc

/-- Witness for C3 on `push constant 7; pop temp 3` from the bootstrap
state: SP returns to 256. -/
theorem claimC3_witness :
    (runPP (symAddr (fun _ => 16)) "Main"
      ⟨0, 0, fun a => if a = 0 then 256 else 0⟩
      [Command.push "constant" 7, Command.pop "temp" 3]).ram 0 =
      256 + pushCount [Command.push "constant" 7, Command.pop "temp" 3] -
        popCount [Command.push "constant" 7, Command.pop "temp" 3] :=
  (claimC3 (symAddr (fun _ => 16)) "Main" (by decide) (by decide) (by decide)
    (by decide) (by decide) (by decide)
    (fun s => by
      simp only [symAddr]
      repeat' split
      all_goals omega)
    [Command.push "constant" 7, Command.pop "temp" 3]
    ⟨0, 0, fun a => if a = 0 then 256 else 0⟩
    (fun a => by
      show (if a = 0 then 256 else 0) < 65536
      split <;> omega)
    (fun c hc => by
      simp only [List.mem_cons, List.not_mem_nil, or_false] at hc
      rcases hc with rfl | rfl
      · simp [validPP, pushSegs]
      · simp [validPP, popSegs])
    (by decide) (by decide)
    (fun n => by
      rcases n with _ | _ | k
      · decide
      · decide
      · simp only [List.take_succ_cons, List.take_nil]
        decide)
    (fun n s i h => by
      rcases n with _ | _ | k
      · simp at h
      · simp only [List.getElem?_cons_succ, List.getElem?_cons_zero,
          Option.some.injEq, Command.pop.injEq] at h
        rcases h with ⟨rfl, rfl⟩
        decide
      · simp at h)).1

set_option maxRecDepth 100000 in
set_option maxHeartbeats 1000000 in
/-- C1 counterexample: for `call F 0` into `function F 0` whose body pushes
one value (`push constant 42`) and returns, simulating the generated
assembly from `SP = 256` leaves `SP = 257` — one word *taller* than before
the (zero) arguments were pushed, not one word shorter (`255`) as claimed.
The returned value sits at the new top and the four pointers are
restored. -/
theorem claimC1_counterexample :
    (genList [Command.call "F" 0, Command.function "F" 0,
        Command.push "constant" 42, Command.ret]
        (mkCodeGenerator Option.none)).isOk = true ∧
    (execAsm (symAddr (fun _ => 16))
      (Option.getD (Option.map Prod.fst (Except.toOption
        (genList [Command.call "F" 0, Command.function "F" 0,
          Command.push "constant" 42, Command.ret]
          (mkCodeGenerator Option.none)))) [])
      ⟨0, 0, fun a => if a = 0 then 256 else if a = 1 then 500 else
        if a = 2 then 400 else if a = 3 then 3000 else
        if a = 4 then 3010 else 0⟩).ram 0 = 257 ∧
    (257 : Nat) ≠ 256 - 1 ∧
    (execAsm (symAddr (fun _ => 16))
      (Option.getD (Option.map Prod.fst (Except.toOption
        (genList [Command.call "F" 0, Command.function "F" 0,
          Command.push "constant" 42, Command.ret]
          (mkCodeGenerator Option.none)))) [])
      ⟨0, 0, fun a => if a = 0 then 256 else if a = 1 then 500 else
        if a = 2 then 400 else if a = 3 then 3000 else
        if a = 4 then 3010 else 0⟩).ram 256 = 42 ∧
    (execAsm (symAddr (fun _ => 16))
      (Option.getD (Option.map Prod.fst (Except.toOption
        (genList [Command.call "F" 0, Command.function "F" 0,
          Command.push "constant" 42, Command.ret]
          (mkCodeGenerator Option.none)))) [])
      ⟨0, 0, fun a => if a = 0 then 256 else if a = 1 then 500 else
        if a = 2 then 400 else if a = 3 then 3000 else
        if a = 4 then 3010 else 0⟩).ram 1 = 500 ∧
    (execAsm (symAddr (fun _ => 16))
      (Option.getD (Option.map Prod.fst (Except.toOption
        (genList [Command.call "F" 0, Command.function "F" 0,
          Command.push "constant" 42, Command.ret]
          (mkCodeGenerator Option.none)))) [])
      ⟨0, 0, fun a => if a = 0 then 256 else if a = 1 then 500 else
        if a = 2 then 400 else if a = 3 then 3000 else
        if a = 4 then 3010 else 0⟩).ram 2 = 400 := by
  exact ⟨by decide, by decide, by decide, by decide, by decide, by decide⟩

/-- A comment line and a label declaration leave the machine unchanged. -/
theorem execAsm_nop2 (env : String → Nat) (s t : String) (m : Mach) :
    execAsm env [.comment s, .labelDecl t] m = m := rfl

set_option maxRecDepth 100000 in
set_option maxHeartbeats 2000000 in
/-- C1 (amended): for `call F n` into `function F k` whose body pushes
exactly one value and returns, executing the generated call prologue,
function entry, body push and return epilogue leaves the stack exactly one
word *taller* than it was before the `n` arguments were pushed (`SP`
before the arguments was `sp - n`; it ends at `sp - n + 1`), with the
returned value at the new top of stack, `LCL`, `ARG`, `THIS`, `THAT`
restored to their pre-call values, and execution resumed at the pushed
return address. -/
theorem claimC1 (env : String → Nat)
    (hSP : env "SP" = 0) (hLCL : env "LCL" = 1) (hARG : env "ARG" = 2)
    (hTHIS : env "THIS" = 3) (hTHAT : env "THAT" = 4)
    (hR13 : env "R13" = 13) (hR14 : env "R14" = 14)
    (st : GenState) (name : String) (n v : Int) (k : Nat)
    (m : Mach) (sp ra : Nat)
    (henvRet : env (name ++ "$ret." ++ natStr st.returnCounter) = ra)
    (hra : ra < 32768)
    (hwf1 : m.ram 1 < 65536) (hwf2 : m.ram 2 < 65536)
    (hwf3 : m.ram 3 < 65536) (hwf4 : m.ram 4 < 65536)
    (hn0 : 0 ≤ n) (hn1 : n + 5 < 32768) (hv0 : 0 ≤ v) (hv1 : v < 32768)
    (hsp : m.ram 0 = sp) (hargs : 256 + n.toNat ≤ sp)
    (hbound : sp + k + 7 < 32768) :
    (execAsm env ((generateCall st name n).1 ++
        ((generateFunction (generateCall st name n).2 name (k : Int)).1 ++
         ((generatePush st.currentFile "constant" v).getD [] ++
          generateReturn))) m).ram 0 = (sp - n.toNat) + 1 ∧
    (execAsm env ((generateCall st name n).1 ++
        ((generateFunction (generateCall st name n).2 name (k : Int)).1 ++
         ((generatePush st.currentFile "constant" v).getD [] ++
          generateReturn))) m).ram (sp - n.toNat) = v.toNat ∧
    (execAsm env ((generateCall st name n).1 ++
        ((generateFunction (generateCall st name n).2 name (k : Int)).1 ++
         ((generatePush st.currentFile "constant" v).getD [] ++
          generateReturn))) m).ram 1 = m.ram 1 ∧
    (execAsm env ((generateCall st name n).1 ++
        ((generateFunction (generateCall st name n).2 name (k : Int)).1 ++
         ((generatePush st.currentFile "constant" v).getD [] ++
          generateReturn))) m).ram 2 = m.ram 2 ∧
    (execAsm env ((generateCall st name n).1 ++
        ((generateFunction (generateCall st name n).2 name (k : Int)).1 ++
         ((generatePush st.currentFile "constant" v).getD [] ++
          generateReturn))) m).ram 3 = m.ram 3 ∧
    (execAsm env ((generateCall st name n).1 ++
        ((generateFunction (generateCall st name n).2 name (k : Int)).1 ++
         ((generatePush st.currentFile "constant" v).getD [] ++
          generateReturn))) m).ram 4 = m.ram 4 ∧
    (execAsm env ((generateCall st name n).1 ++
        ((generateFunction (generateCall st name n).2 name (k : Int)).1 ++
         ((generatePush st.currentFile "constant" v).getD [] ++
          generateReturn))) m).A = ra := by
  have hbr : (n + 5).toNat = n.toNat + 5 := by omega
  have hfn : (generateFunction (generateCall st name n).2 name (k : Int)).1 =
      [.comment ("function " ++ name ++ " " ++ intStr (k : Int)),
       .labelDecl name] ++ pushZeroBlocks k := rfl
  have hsplitAll :
      execAsm env ((generateCall st name n).1 ++
        ((generateFunction (generateCall st name n).2 name (k : Int)).1 ++
         ((generatePush st.currentFile "constant" v).getD [] ++
          generateReturn))) m =
      execAsm env generateReturn
        (execAsm env ((generatePush st.currentFile "constant" v).getD [])
          (execAsm env (pushZeroBlocks k)
            (execAsm env
              [.comment ("function " ++ name ++ " " ++ intStr (k : Int)),
               .labelDecl name]
              (execAsm env (generateCall st name n).1 m)))) := by
    rw [execAsm_append, hfn, execAsm_append, execAsm_append, execAsm_append]
  rw [hsplitAll]
  obtain ⟨c0, cra, cf1, cf2, cf3, cf4, cL, cA, _⟩ :=
    callBlock_exec env hSP hLCL hARG hTHIS hTHAT st name n m sp ra henvRet hra
      hwf1 hwf2 hwf3 hwf4 hn0 hn1 hsp (by omega) (by omega) (by omega)
  rw [execAsm_nop2 env ("function " ++ name ++ " " ++ intStr (k : Int)) name
    (execAsm env (generateCall st name n).1 m)]
  obtain ⟨z0, _, zfr⟩ := pushZeroBlocks_exec env hSP k
    (execAsm env (generateCall st name n).1 m) (sp + 5) c0 (by omega)
    (by omega)
  obtain ⟨p0, pv, pfr⟩ := pushConstant_exec env hSP st.currentFile v
    (execAsm env (pushZeroBlocks k) (execAsm env (generateCall st name n).1 m))
    (sp + 5 + k) z0 (by omega) (by omega) hv0 hv1
  have t1 : (execAsm env ((generatePush st.currentFile "constant" v).getD [])
      (execAsm env (pushZeroBlocks k)
        (execAsm env (generateCall st name n).1 m))).ram 1 = sp + 5 := by
    rw [pfr 1 (by omega) (by omega), zfr 1 (by omega) (by omega), cL]
  have t2 : (execAsm env ((generatePush st.currentFile "constant" v).getD [])
      (execAsm env (pushZeroBlocks k)
        (execAsm env (generateCall st name n).1 m))).ram 2 =
      sp + 5 - (n + 5).toNat := by
    rw [pfr 2 (by omega) (by omega), zfr 2 (by omega) (by omega), cA]
  have tsp : (execAsm env ((generatePush st.currentFile "constant" v).getD [])
      (execAsm env (pushZeroBlocks k)
        (execAsm env (generateCall st name n).1 m))).ram sp = ra := by
    rw [pfr sp (by omega) (by omega), zfr sp (by omega) (by omega), cra]
  have tf1 : (execAsm env ((generatePush st.currentFile "constant" v).getD [])
      (execAsm env (pushZeroBlocks k)
        (execAsm env (generateCall st name n).1 m))).ram (sp + 1) =
      m.ram 1 := by
    rw [pfr (sp + 1) (by omega) (by omega), zfr (sp + 1) (by omega) (by omega),
      cf1]
  have tf2 : (execAsm env ((generatePush st.currentFile "constant" v).getD [])
      (execAsm env (pushZeroBlocks k)
        (execAsm env (generateCall st name n).1 m))).ram (sp + 2) =
      m.ram 2 := by
    rw [pfr (sp + 2) (by omega) (by omega), zfr (sp + 2) (by omega) (by omega),
      cf2]
  have tf3 : (execAsm env ((generatePush st.currentFile "constant" v).getD [])
      (execAsm env (pushZeroBlocks k)
        (execAsm env (generateCall st name n).1 m))).ram (sp + 3) =
      m.ram 3 := by
    rw [pfr (sp + 3) (by omega) (by omega), zfr (sp + 3) (by omega) (by omega),
      cf3]
  have tf4 : (execAsm env ((generatePush st.currentFile "constant" v).getD [])
      (execAsm env (pushZeroBlocks k)
        (execAsm env (generateCall st name n).1 m))).ram (sp + 4) =
      m.ram 4 := by
    rw [pfr (sp + 4) (by omega) (by omega), zfr (sp + 4) (by omega) (by omega),
      cf4]
  obtain ⟨r0, rv, r4, r3, r2, r1, rA, _⟩ :=
    returnBlock_exec env hSP hLCL hARG hTHIS hTHAT hR13 hR14
      (execAsm env ((generatePush st.currentFile "constant" v).getD [])
        (execAsm env (pushZeroBlocks k)
          (execAsm env (generateCall st name n).1 m)))
      (sp + 5) (sp + 5 + k + 1) (sp + 5 - (n + 5).toNat)
      t1 (by omega) (by omega) p0 (by omega) (by omega)
      t2 (by omega) (by omega) (by omega)
      (by rw [show sp + 5 + k + 1 - 1 = sp + 5 + k from by omega, pv]; omega)
      (by rw [show sp + 5 - 5 = sp from by omega, tsp]; omega)
      (by rw [show sp + 5 - 1 = sp + 4 from by omega, tf4]; exact hwf4)
      (by rw [show sp + 5 - 2 = sp + 3 from by omega, tf3]; exact hwf3)
      (by rw [show sp + 5 - 3 = sp + 2 from by omega, tf2]; exact hwf2)
      (by rw [show sp + 5 - 4 = sp + 1 from by omega, tf1]; exact hwf1)
  refine ⟨?_, ?_, ?_, ?_, ?_, ?_, ?_⟩
  · rw [r0]; omega
  · rw [show sp - n.toNat = sp + 5 - (n + 5).toNat from by omega, rv,
      show sp + 5 + k + 1 - 1 = sp + 5 + k from by omega, pv]
  · rw [r1, show sp + 5 - 4 = sp + 1 from by omega, tf1]
  · rw [r2, show sp + 5 - 3 = sp + 2 from by omega, tf2]
  · rw [r3, show sp + 5 - 2 = sp + 3 from by omega, tf3]
  · rw [r4, show sp + 5 - 1 = sp + 4 from by omega, tf4]
  · rw [rA, show sp + 5 - 5 = sp from by omega, tsp]

/-- Witness for C1: `call F 2` with arguments `11, 22` on the stack at
`SP = 258`, one local, returned value `42`: SP ends at `257`, one above the
pre-argument `256`. -/
theorem claimC1_witness :
    (execAsm (symAddr (fun _ => 16))
      ((generateCall (mkCodeGenerator Option.none) "F" 2).1 ++
        ((generateFunction (generateCall (mkCodeGenerator Option.none) "F" 2).2
           "F" ((1 : Nat) : Int)).1 ++
         ((generatePush (mkCodeGenerator Option.none).currentFile "constant"
            42).getD [] ++
          generateReturn)))
      ⟨0, 0, fun a => if a = 0 then 258 else if a = 1 then 500 else
        if a = 2 then 400 else if a = 3 then 3000 else if a = 4 then 3010 else
        if a = 256 then 11 else if a = 257 then 22 else 0⟩).ram 0 =
      (258 - (2 : Int).toNat) + 1 :=
  (claimC1 (symAddr (fun _ => 16)) (by decide) (by decide) (by decide)
    (by decide) (by decide) (by decide) (by decide)
    (mkCodeGenerator Option.none) "F" 2 42 1
    ⟨0, 0, fun a => if a = 0 then 258 else if a = 1 then 500 else
      if a = 2 then 400 else if a = 3 then 3000 else if a = 4 then 3010 else
      if a = 256 then 11 else if a = 257 then 22 else 0⟩
    258 16 (by decide) (by decide) (by decide) (by decide) (by decide)
    (by decide) (by decide) (by decide) (by decide) (by decide) (by decide)
    (by decide) (by decide)).1

/-- C2 counterexample: the unit `["eq", "// done"]` contains K = 1
comparison command, yet the driver's stale-command duplication delivers the
`eq` twice, so the emitted assembly declares *four* distinct synthesized
comparison labels, not 2K = 2. -/
theorem claimC2_counterexample :
    unitComps ["eq", "// done"] = 1 ∧
    AsmLine.labelDecl "TRUE_0" ∈
      (translateRun [("Main.vm", ["eq", "// done"])]).toOption.getD [] ∧
    AsmLine.labelDecl "END_0" ∈
      (translateRun [("Main.vm", ["eq", "// done"])]).toOption.getD [] ∧
    AsmLine.labelDecl "TRUE_1" ∈
      (translateRun [("Main.vm", ["eq", "// done"])]).toOption.getD [] ∧
    AsmLine.labelDecl "END_1" ∈
      (translateRun [("Main.vm", ["eq", "// done"])]).toOption.getD [] ∧
    List.Nodup ["TRUE_0", "END_0", "TRUE_1", "END_1"] := by
  exact ⟨by decide, by decide, by decide, by decide, by decide, by decide⟩

/-- C2 (amended): over a successful run whose units deliver exactly their
clean parsed command streams (no stale-command duplication), with K total
comparison commands across all units, the run consumes exactly K units of
the shared label counter and the emitted assembly declares all 2K
synthesized comparison labels, which are pairwise distinct across the whole
program, units included. -/
theorem claimC2 (units : List (String × List String)) (o : List AsmLine)
    (h : translateRun units = .ok o)
    (hclean : ∀ u ∈ units, deliveredCommands u.2 = parsedCommands u.2) :
    (translateUnits units (mkCodeGenerator Option.none)).map
        (fun p => p.2.labelCounter) = .ok (totalComps units) ∧
    (synthLabels 0 (totalComps units)).length = 2 * totalComps units ∧
    (synthLabels 0 (totalComps units)).Nodup ∧
    ∀ l ∈ synthLabels 0 (totalComps units), AsmLine.labelDecl l ∈ o := by
  rw [translateRun] at h
  match hu : translateUnits units (mkCodeGenerator Option.none) with
  | .error e => rw [hu] at h; simp [Except.map] at h
  | .ok (o2, stF) =>
    rw [hu] at h
    simp only [Except.map, Except.ok.injEq] at h
    subst h
    have hl := translateUnits_labels units (mkCodeGenerator Option.none)
      o2 stF hu hclean
    have hc0 : (mkCodeGenerator Option.none).labelCounter = 0 := rfl
    rw [hc0] at hl
    refine ⟨?_, synthLabels_length 0 _, synthLabels_nodup 0 _, ?_⟩
    · simp only [Except.map, Except.ok.injEq]
      rw [hl.1]
      omega
    · intro l hlmem
      exact List.mem_append_right _ (hl.2 l hlmem)

/-- Witness for C2 on the two-unit run `Main.vm : eq`, `Other.vm : lt`. -/
theorem claimC2_witness :
    (translateUnits [("Main.vm", ["eq"]), ("Other.vm", ["lt"])]
        (mkCodeGenerator Option.none)).map (fun p => p.2.labelCounter) =
      .ok (totalComps [("Main.vm", ["eq"]), ("Other.vm", ["lt"])]) :=
  (claimC2 [("Main.vm", ["eq"]), ("Other.vm", ["lt"])]
    ((translateRun [("Main.vm", ["eq"]), ("Other.vm", ["lt"])]).toOption.getD
      [])
    (by decide)
    (fun u hu => by
      simp only [List.mem_cons, List.not_mem_nil, or_false] at hu
      rcases hu with rfl | rfl
      · decide
      · decide)).1

/-- C4 counterexample: generating `label LOOP` with no enclosing function
declared is *not* an error — the run succeeds and silently emits the
scoped label `($LOOP)` with an empty function prefix. -/
theorem claimC4_counterexample :
    (translateRun [("Main.vm", ["label LOOP"])]).isOk = true ∧
    AsmLine.labelDecl "$LOOP" ∈
      (translateRun [("Main.vm", ["label LOOP"])]).toOption.getD [] := by
  exact ⟨by decide, by decide⟩

/-- C4 (amended): generating a `label`, `goto` or `if-goto` command when no
enclosing function has been declared does not raise any error: the user
label is rewritten to `<enclosing-function>$<label>` where the enclosing
function is the empty string, yielding `$<label>`. -/
theorem claimC4 (st : GenState) (l : String) (h : st.currentFunction = "") :
    generate (.label l) st =
      (.ok (some [.comment ("label " ++ l), .labelDecl ("$" ++ l)]), st) ∧
    generate (.goto l) st =
      (.ok (some [.comment ("goto " ++ l),
        .aSym ("$" ++ l), .cI .none .c0 .jmp]), st) ∧
    generate (.ifGoto l) st =
      (.ok (some [.comment ("if-goto " ++ l),
        .aSym "SP", .cI .dM .cMm1 .none, .cI .dA .cM .none, .cI .dD .cM .none,
        .aSym ("$" ++ l), .cI .none .cD .jne]), st) := by
  have he : ("" ++ "$" : String) = "$" := rfl
  refine ⟨?_, ?_, ?_⟩ <;>
    simp [generate, generateLabel, generateGoto, generateIfGoto, h, he]

/-- Witness for C4 on a fresh generator and the label `LOOP`. -/
theorem claimC4_witness :
    generate (.label "LOOP") (mkCodeGenerator Option.none) =
      (.ok (some [.comment ("label " ++ "LOOP"), .labelDecl ("$" ++ "LOOP")]),
        mkCodeGenerator Option.none) :=
  (claimC4 (mkCodeGenerator Option.none) "LOOP" rfl).1

/-- C5: the driver loop delivers the final command *twice* to the generator
when comment or blank lines follow it — `Parser.advance` leaves the stale
`current_command` in place when it runs out of lines, and the loop guard
`if parser.current_command:` then re-generates it.  On the failing input
`["push constant 7", "// done"]` the delivered stream duplicates the push
while the clean per-line parse contains it once; the run still succeeds and
the duplicated block appears twice in the output. -/
theorem claimC5 :
    deliveredCommands ["push constant 7", "// done"] =
      .ok [.push "constant" 7, .push "constant" 7] ∧
    parsedCommands ["push constant 7", "// done"] =
      .ok [.push "constant" 7] ∧
    ((translateRun [("Main.vm", ["push constant 7", "// done"])]).toOption.getD
       []).count (AsmLine.comment "push constant 7") = 2 := by
  exact ⟨by decide, by decide, by decide⟩

/-- C6 counterexample: `push` with the negative index `-3` is accepted by
the parser (Python's `int()` accepts a sign), contradicting the claim that
a negative index fails with an error. -/
theorem claimC6_counterexample :
    parseCommand "push constant -3" = .ok (.push "constant" (-3)) := by decide

/-- C6 (amended): `push`/`pop` parse successfully exactly when they have a
segment token and an *integer* index token — of any sign, negative included;
a non-integer index raises `ValueError`, missing operands raise
`IndexError`, and an unrecognized opcode raises `ValueError: Unknown
command`. -/
theorem claimC6 (line seg tok op : String) (rest : List String) (i : Int) :
    (pySplit line = "push" :: seg :: tok :: rest → pyInt tok = some i →
      parseCommand line = .ok (.push seg i)) ∧
    (pySplit line = "push" :: seg :: tok :: rest → pyInt tok = Option.none →
      parseCommand line =
        .error ("ValueError: invalid literal for int(): " ++ tok)) ∧
    (pySplit line = "pop" :: seg :: tok :: rest → pyInt tok = some i →
      parseCommand line = .ok (.pop seg i)) ∧
    (pySplit line = "pop" :: seg :: tok :: rest → pyInt tok = Option.none →
      parseCommand line =
        .error ("ValueError: invalid literal for int(): " ++ tok)) ∧
    (pySplit line = ["push", seg] →
      parseCommand line = .error "IndexError: list index out of range") ∧
    (pySplit line = ["pop"] →
      parseCommand line = .error "IndexError: list index out of range") ∧
    (pySplit line = op :: rest → op ∉ arithOps →
      op ∉ ["push", "pop", "label", "goto", "if-goto", "function", "call",
        "return"] →
      parseCommand line = .error ("Unknown command: " ++ op)) := by
  refine ⟨?_, ?_, ?_, ?_, ?_, ?_, ?_⟩
  · intro h hi
    rw [parseCommand, h]
    simp [arithOps, hi]
  · intro h hi
    rw [parseCommand, h]
    simp [arithOps, hi]
  · intro h hi
    rw [parseCommand, h]
    simp [arithOps, hi]
  · intro h hi
    rw [parseCommand, h]
    simp [arithOps, hi]
  · intro h
    rw [parseCommand, h]
    simp [arithOps]
  · intro h
    rw [parseCommand, h]
    simp [arithOps]
  · intro h hop hop2
    rw [parseCommand, h]
    simp only [List.mem_cons, List.not_mem_nil, or_false, not_or] at hop2
    obtain ⟨n1, n2, n3, n4, n5, n6, n7, n8⟩ := hop2
    simp only [if_neg hop, if_neg n1, if_neg n2, if_neg n3, if_neg n4,
      if_neg n5, if_neg n6, if_neg n7, if_neg n8]

/-- Witness for C6: a non-integer index raises `ValueError`. -/
theorem claimC6_witness :
    parseCommand "push temp abc" =
      .error ("ValueError: invalid literal for int(): " ++ "abc") :=
  (claimC6 "push temp abc" "temp" "abc" "x" [] 0).2.1 (by decide) (by decide)

end VMT
